import Mathlib

/-!
# SURF browser-automation service: verification of the session & operation core

A shallow embedding, in Lean 4, of the parts of the SURF service that the
specification's testable properties talk about:

* the adaptive pacer (`src/utils/anti_detection.py`, `AdaptiveRateLimiter`),
* the request schemas' validation bounds (`src/models/schemas.py`) and the
  standalone session-id validator (`src/utils/validators.py`),
* the session registry (`src/services/session_service.py`),
* navigation with retry and its effect trace (`src/services/browser_service.py`),
* the site-memory access-statistics update (`src/utils/site_memory.py`),
* the basic content cleaner (`src/utils/content_processor.py`,
  `ContentProcessor.clean_content_basic`).

Python floats are modelled as rationals (`ℚ`), machine integers as `Int`/`Nat`,
exceptions as `Except`/explicit error results, nondeterminism (random jitter,
network outcomes) as explicit oracle parameters, and the awaited effects of a
coroutine as an explicit action list.  All definitions are executable so that
concrete runs can be checked by `decide`.
-/

namespace Surf

/-! ## Adaptive pacer (`AdaptiveRateLimiter`)

`src/utils/anti_detection.py`, lines 170-219.  The constructor defaults are
`base_delay = 2.0`, `min_delay = 0.5`, `max_delay = 10.0`,
`success_increment = 0.1`, `failure_decrement = 0.2`; the initial
`success_rate` is `1.0` and `current_delay` starts at `base_delay`.
-/

structure PacerState where
  success_rate : ℚ
  base_delay : ℚ
  current_delay : ℚ
  min_delay : ℚ
  max_delay : ℚ
  success_increment : ℚ
  failure_decrement : ℚ
  total_requests : ℕ
  successful_requests : ℕ
  deriving Repr, DecidableEq

/-- `AdaptiveRateLimiter.__init__` with its default arguments. -/
def PacerState.default : PacerState :=
  { success_rate := 1
    base_delay := 2
    current_delay := 2
    min_delay := 1/2
    max_delay := 10
    success_increment := 1/10
    failure_decrement := 2/10
    total_requests := 0
    successful_requests := 0 }

/-- `AdaptiveRateLimiter.get_next_delay`: the state update part.  On success
the success rate is pushed up by `success_increment` (capped at 1) and the
delay is multiplied by 0.9 (floored at `min_delay`); on failure the success
rate is pushed down by `failure_decrement` (floored at 0.1) and the delay is
doubled (capped at `max_delay`). -/
def PacerState.update (st : PacerState) (success : Bool) : PacerState :=
  if success then
    { st with
      total_requests := st.total_requests + 1
      successful_requests := st.successful_requests + 1
      success_rate := min 1 (st.success_rate + st.success_increment)
      current_delay := max st.min_delay (st.current_delay * (9/10)) }
  else
    { st with
      total_requests := st.total_requests + 1
      success_rate := max (1/10) (st.success_rate - st.failure_decrement)
      current_delay := min st.max_delay (st.current_delay * 2) }

/-- `AdaptiveRateLimiter.get_next_delay`: returned value.  The random
`random.uniform(0, 1.0)` draw is passed in as the oracle `jitter`; the
function returns the updated state and `current_delay + jitter`. -/
def PacerState.getNextDelay (st : PacerState) (success : Bool) (jitter : ℚ) :
    PacerState × ℚ :=
  let st' := st.update success
  (st', st'.current_delay + jitter)

/-- Folding a whole success/failure history through the pacer. -/
def PacerState.run (st : PacerState) (events : List Bool) : PacerState :=
  events.foldl PacerState.update st

/-- The bounds the spec asserts of the pacer state. -/
def PacerState.Bounded (st : PacerState) : Prop :=
  st.min_delay ≤ st.current_delay ∧ st.current_delay ≤ st.max_delay ∧
    (1/10 : ℚ) ≤ st.success_rate ∧ st.success_rate ≤ 1

/-! ## Request schema validation (`src/models/schemas.py`, `src/utils/validators.py`) -/

/-- `NavigateRequest.timeout`: `Field(default=None, ge=1000, le=300000)`
(`src/models/schemas.py`, line 84), applied to a supplied value. -/
def NavigateRequest.timeoutOk (t : ℤ) : Bool :=
  1000 ≤ t && t ≤ 300000

/-- `ExtractRequest.timeout`: `Field(default=None, ge=1000, le=60000)`
(`src/models/schemas.py`, line 98). -/
def ExtractRequest.timeoutOk (t : ℤ) : Bool :=
  1000 ≤ t && t ≤ 60000

/-- `InteractRequest.timeout`: `Field(default=None, ge=1000, le=60000)`
(`src/models/schemas.py`, line 114). -/
def InteractRequest.timeoutOk (t : ℤ) : Bool :=
  1000 ≤ t && t ≤ 60000

/-- `ScreenshotRequest.timeout`: `Field(default=None, ge=1000, le=60000)`
(`src/models/schemas.py`, line 137). -/
def ScreenshotRequest.timeoutOk (t : ℤ) : Bool :=
  1000 ≤ t && t ≤ 60000

/-- The `validate_session_id` pydantic validator shared by the request
schemas (`src/models/schemas.py`, lines 86-90 and copies): reject when the
string is empty or does not start with the literal `sess_`. -/
def schemasValidateSessionId (v : String) : Bool :=
  !v.data.isEmpty && "sess_".data.isPrefixOf v.data

/-- A lowercase hexadecimal digit, `[a-f0-9]`. -/
def isLowerHexDigit (c : Char) : Bool :=
  ('0' ≤ c && c ≤ '9') || ('a' ≤ c && c ≤ 'f')

/-- `utils.validators.validate_session_id` (`src/utils/validators.py`,
lines 25-32): the full-pattern check `^sess_[a-f0-9]\x7b8\x7d$`. -/
def validateSessionId (s : String) : Bool :=
  if s = "" then false
  else
    "sess_".data.isPrefixOf s.data &&
      (s.data.drop 5).length == 8 && (s.data.drop 5).all isLowerHexDigit

/-! ## Session registry (`src/services/session_service.py`)

State is the `SessionService` instance: the `active_sessions` dict (modelled
as an association list with dict-assignment semantics), plus the set of open
browser contexts and, as observable history, the log of `context.close()`
invocations.  Wall-clock reads (`time.time()`, `datetime.now`) are passed in
as the parameter `now`; fresh uuid-based ids and new Playwright objects are
passed in as oracle arguments. -/

/-- Error values raised by the core (`src/core/foundation.py`). -/
inductive LimitViolation where
  | duration
  | requests
  | pages
  | screenshots
  | interactions
  deriving Repr, DecidableEq

/-- The reason recorded in an `InvalidSessionError`: either the TTL message
`Session expired` or the quota message listing the exceeded limits. -/
inductive InvalidReason where
  | expired
  | limitsExceeded (violations : List LimitViolation)
  deriving Repr, DecidableEq

inductive SurfError where
  | sessionNotFound (session_id : String)
  | invalidSession (session_id : String) (reason : InvalidReason)
  | resourceLimit (resource : String) (limit : ℕ) (current : ℕ)
  | browserOperation (operation : String) (message : String)
  | validation (field : String) (message : String)
  deriving Repr, DecidableEq

/-- `models.schemas.SessionStats`. -/
structure SessionStats where
  requests_made : ℕ := 0
  pages_loaded : ℕ := 0
  screenshots_taken : ℕ := 0
  interactions_performed : ℕ := 0
  errors_encountered : ℕ := 0
  total_duration : ℚ := 0
  last_error : Option String := none
  deriving Repr, DecidableEq

/-- `models.schemas.SessionLimits` with its field defaults. -/
structure SessionLimits where
  max_duration : ℕ := 300
  max_requests : ℕ := 1000
  max_pages : ℕ := 100
  max_screenshots : ℕ := 50
  max_interactions : ℕ := 500
  max_memory_mb : ℕ := 512
  deriving Repr, DecidableEq

/-- `SessionLimits.check_limits`: strict comparisons against each counter;
returns the list of violations (the Python version returns message strings,
modelled here as tags). -/
def SessionLimits.checkLimits (lim : SessionLimits) (s : SessionStats) :
    List LimitViolation :=
  (if s.total_duration > (lim.max_duration : ℚ) then [LimitViolation.duration]
    else []) ++
  (if s.requests_made > lim.max_requests then [LimitViolation.requests]
    else []) ++
  (if s.pages_loaded > lim.max_pages then [LimitViolation.pages] else []) ++
  (if s.screenshots_taken > lim.max_screenshots then
    [LimitViolation.screenshots] else []) ++
  (if s.interactions_performed > lim.max_interactions then
    [LimitViolation.interactions] else [])

inductive SessionStatus where
  | active
  | idle
  | expired
  | error
  deriving Repr, DecidableEq

/-- `models.schemas.SessionConfig` (the fields `create_session` fills in). -/
structure SessionConfig where
  viewport_width : ℕ := 1920
  viewport_height : ℕ := 1080
  user_agent : String
  stealth : Bool := true
  block_resources : List String := ["image", "font", "stylesheet"]
  timeout : ℕ := 30000
  java_script_enabled : Bool := true
  ignore_https_errors : Bool := true
  deriving Repr, DecidableEq

/-- `models.schemas.BrowserContext` (the per-session context record; the
Python `context_id`/`page_id` are `str(id(object))`, modelled as numeric
object identities). -/
structure BrowserContextData where
  context_id : ℕ
  page_id : ℕ
  url : Option String := none
  title : Option String := none
  status : SessionStatus := SessionStatus.active
  created_at : ℚ
  last_activity : ℚ
  deriving Repr, DecidableEq

/-- `models.schemas.SessionData` (runtime `page`/`context_obj` handles are
the identities already recorded in `context`). -/
structure SessionData where
  session_id : String
  config : SessionConfig
  context : BrowserContextData
  user_id : Option String := none
  stats : SessionStats := {}
  deriving Repr, DecidableEq

/-- The mutable state of a `SessionService` instance. -/
structure RegistryState where
  active_sessions : List (String × SessionData) := []
  browser_contexts : List ℕ := []
  context_close_log : List ℕ := []
  deriving Repr, DecidableEq

/-- Dict lookup `self.active_sessions[session_id]` (with the membership test
`session_id in self.active_sessions`). -/
def RegistryState.find? (st : RegistryState) (sid : String) :
    Option SessionData :=
  st.active_sessions.lookup sid

/-- Dict assignment `d[key] = value` on an association-list model. -/
def dictInsert {β : Type} (l : List (String × β)) (k : String)
    (v : β) : List (String × β) :=
  if l.any (fun p => p.1 == k) then
    l.map (fun p => if p.1 == k then (k, v) else p)
  else l ++ [(k, v)]

/-- Dict deletion `del d[key]` on an association-list model. -/
def dictRemove {β : Type} (l : List (String × β)) (k : String) :
    List (String × β) :=
  l.filter (fun p => !(p.1 == k))

namespace SessionService

/-- `SessionService.create_session` (lines 96-176).  Under the registry lock:
if the number of active sessions has reached `settings.max_sessions`, raise
`ResourceLimitError("sessions", max_sessions, len(active_sessions))`;
otherwise mint the fresh id, obtain a new browser context and page, register
the session record and return it.  `fresh_id`, `new_context`, `new_page` and
the drawn configuration `cfg` stand for the uuid draw and the Playwright
allocations. -/
def createSession (max_sessions : ℕ) (st : RegistryState) (fresh_id : String)
    (new_context : ℕ) (new_page : ℕ) (cfg : SessionConfig) (now : ℚ)
    (user_id : Option String) :
    Except SurfError SessionData × RegistryState :=
  if st.active_sessions.length ≥ max_sessions then
    (Except.error
        (SurfError.resourceLimit "sessions" max_sessions
          st.active_sessions.length),
      st)
  else
    let sd : SessionData :=
      { session_id := fresh_id
        config := cfg
        context :=
          { context_id := new_context
            page_id := new_page
            created_at := now
            last_activity := now }
        user_id := user_id
        stats := {} }
    (Except.ok sd,
      { st with
        active_sessions := dictInsert st.active_sessions fresh_id sd
        browser_contexts := st.browser_contexts ++ [new_context] })

/-- `SessionService._close_session_internal` (lines 183-207).  Raise
`SessionNotFoundError` when the id is absent; otherwise look the context up
among `browser.contexts` and `close()` it (logged in `context_close_log`);
the record is deleted even when `context.close()` raises
(`context_close_fails = true`). -/
def closeSessionInternal (st : RegistryState) (sid : String)
    (context_close_fails : Bool) : Except SurfError Unit × RegistryState :=
  match st.find? sid with
  | none => (Except.error (SurfError.sessionNotFound sid), st)
  | some sd =>
      let cid := sd.context.context_id
      if cid ∈ st.browser_contexts then
        (Except.ok (),
          { st with
            context_close_log := st.context_close_log ++ [cid]
            browser_contexts :=
              if context_close_fails then st.browser_contexts
              else st.browser_contexts.filter (fun c => !(c == cid))
            active_sessions := dictRemove st.active_sessions sid })
      else
        (Except.ok (),
          { st with active_sessions := dictRemove st.active_sessions sid })

/-- `SessionService.close_session` (lines 178-181): take the registry lock
and delegate to `_close_session_internal`. -/
def closeSession (st : RegistryState) (sid : String)
    (context_close_fails : Bool) : Except SurfError Unit × RegistryState :=
  closeSessionInternal st sid context_close_fails

/-- `SessionService.get_session` (lines 209-232): `SessionNotFoundError` when
absent; when `now - created_at > settings.session_ttl`, close internally and
raise `InvalidSessionError(sid, "Session expired")`; when
`check_limits` reports violations, close internally and raise
`InvalidSessionError` with the violation message; otherwise stamp
`last_activity = now` and return the record. -/
def getSession (session_ttl : ℚ) (limits : SessionLimits)
    (st : RegistryState) (now : ℚ) (sid : String) :
    Except SurfError SessionData × RegistryState :=
  match st.find? sid with
  | none => (Except.error (SurfError.sessionNotFound sid), st)
  | some sd =>
      if now - sd.context.created_at > session_ttl then
        (Except.error (SurfError.invalidSession sid InvalidReason.expired),
          (closeSessionInternal st sid false).2)
      else if limits.checkLimits sd.stats ≠ [] then
        (Except.error
            (SurfError.invalidSession sid
              (InvalidReason.limitsExceeded (limits.checkLimits sd.stats))),
          (closeSessionInternal st sid false).2)
      else
        (Except.ok
            { sd with
              context := { sd.context with last_activity := now } },
          { st with
            active_sessions :=
              dictInsert st.active_sessions sid
                { sd with
                  context := { sd.context with last_activity := now } } })

/-- The create/close operations C1 quantifies over. -/
inductive RegistryOp where
  | create (fresh_id : String) (new_context : ℕ) (new_page : ℕ)
  | close (sid : String)
  deriving Repr, DecidableEq

/-- One registry operation, discarding the client-visible result. -/
def applyOp (max_sessions : ℕ) (cfg : SessionConfig) (now : ℚ)
    (st : RegistryState) : RegistryOp → RegistryState
  | RegistryOp.create f c p => (createSession max_sessions st f c p cfg now none).2
  | RegistryOp.close sid => (closeSession st sid false).2

/-- A whole sequence of create/close operations from the initial (empty)
service state. -/
def runOps (max_sessions : ℕ) (cfg : SessionConfig) (now : ℚ)
    (ops : List RegistryOp) : RegistryState :=
  ops.foldl (applyOp max_sessions cfg now) {}

end SessionService

/-! ## Navigation with retry (`src/services/browser_service.py`)

`BrowserService.navigate_to_url` (lines 54-147) and
`BrowserService._navigate_with_retry` (lines 439-463).  The coroutine's
awaited effects are linearised into an explicit action list; network
outcomes of `page.goto` are an oracle `outcomes : attempt number -> result`.
-/

/-- One awaited effect of `navigate_to_url`, in program order. -/
inductive NavAct where
  | acquireRegistryLock
  | acquireSessionLock (session_id : String)
  | pacerWait
  | loadSiteMemory (url : String)
  | gotoAttempt (url : String) (attempt : ℕ)
  | backoffSleep (seconds : ℕ)
  | waitDomContentLoaded
  | mouseWiggle
  | readingDelay
  | gaussianDelay
  | readTitle
  | updateAccessStats (url : String) (success : Bool)
  | updateMonitor (success : Bool)
  deriving Repr, DecidableEq

namespace BrowserService

/-- The `for attempt in range(max_retries)` loop of `_navigate_with_retry`:
try `page.goto`; on the last attempt re-raise the error, otherwise
`await asyncio.sleep(2 ** attempt)` and retry.  `fuel` is the number of loop
iterations left (`max_retries - attempt`); a loop that runs out of
iterations falls through and returns `None`, like the Python `for`. -/
def navigateWithRetryGo (outcomes : ℕ → Except String ℕ) (url : String) :
    (attempt fuel : ℕ) → Except String (Option ℕ) × List NavAct
  | _, 0 => (Except.ok none, [])
  | attempt, fuel + 1 =>
      match outcomes attempt with
      | Except.ok r => (Except.ok (some r), [NavAct.gotoAttempt url attempt])
      | Except.error e =>
          if fuel = 0 then (Except.error e, [NavAct.gotoAttempt url attempt])
          else
            let rest := navigateWithRetryGo outcomes url (attempt + 1) fuel
            (rest.1,
              NavAct.gotoAttempt url attempt ::
                NavAct.backoffSleep (2 ^ attempt) :: rest.2)

/-- `BrowserService._navigate_with_retry(page, url, wait_until, timeout,
max_retries=3)`. -/
def navigateWithRetry (outcomes : ℕ → Except String ℕ) (url : String)
    (max_retries : ℕ) : Except String (Option ℕ) × List NavAct :=
  navigateWithRetryGo outcomes url 0 max_retries

/-- `BrowserService.navigate_to_url`: fail fast when the service is not
initialised; otherwise (optionally) wait on the pacer, (optionally) load
site memory, run the retrying goto, and on success do the soft
DOM-content-loaded wait, the human-behaviour stage, read the title and
record a success into site memory and the resource monitor; on failure
record a failure into both and wrap the error as
`BrowserOperationError("navigate", cause)`.  No lock of any kind is
acquired anywhere in the body. -/
def navigateToUrl (enable_adaptive_rate_limiting : Bool)
    (enable_site_memory : Bool) (enable_enhanced_mouse_movement : Bool)
    (initialized : Bool) (url : String)
    (outcomes : ℕ → Except String ℕ) :
    Except SurfError (Option ℕ) × List NavAct :=
  if !initialized then
    (Except.error
        (SurfError.browserOperation "navigate"
          "Browser service not initialized"),
      [])
  else
    let pre :=
      (if enable_adaptive_rate_limiting then [NavAct.pacerWait] else []) ++
        (if enable_site_memory then [NavAct.loadSiteMemory url] else [])
    let r := navigateWithRetry outcomes url 3
    match r.1 with
    | Except.ok resp =>
        (Except.ok resp,
          pre ++ r.2 ++ [NavAct.waitDomContentLoaded] ++
            (if enable_enhanced_mouse_movement then
              [NavAct.mouseWiggle, NavAct.readingDelay]
            else [NavAct.gaussianDelay]) ++
            [NavAct.readTitle] ++
            (if enable_site_memory then [NavAct.updateAccessStats url true]
            else []) ++
            [NavAct.updateMonitor true])
    | Except.error e =>
        (Except.error (SurfError.browserOperation "navigate" e),
          pre ++ r.2 ++
            (if enable_site_memory then [NavAct.updateAccessStats url false]
            else []) ++
            [NavAct.updateMonitor false])

end BrowserService

/-- The backoff sleeps occurring in a trace, in order. -/
def sleepsOf (tr : List NavAct) : List ℕ :=
  tr.filterMap fun a =>
    match a with
    | NavAct.backoffSleep s => some s
    | _ => none

/-- The number of `page.goto` attempts in a trace. -/
def gotoCount (tr : List NavAct) : ℕ :=
  (tr.filterMap fun a =>
    match a with
    | NavAct.gotoAttempt u n => some (u, n)
    | _ => none).length

/-- Whether an action is a lock acquisition. -/
def NavAct.isLock : NavAct → Bool
  | NavAct.acquireRegistryLock => true
  | NavAct.acquireSessionLock _ => true
  | _ => false

/-! ## Site memory (`src/utils/site_memory.py`)

The SQLite table `site_memory` keyed by `site_url` is modelled as an
association list; `INSERT OR REPLACE` is `dictInsert`.  Blob columns that no
claim inspects are carried as opaque strings (their JSON encodings). -/

/-- A value stored inside the `performance_metrics` JSON blob: a rolling
list of samples, or a number (a running average or any other metric). -/
inductive PerfVal where
  | samples (xs : List ℚ)
  | num (x : ℚ)
  deriving Repr, DecidableEq

/-- The `SiteMemory` dataclass / one row of the `site_memory` table. -/
structure SiteMemory where
  site_url : String
  session_data : String := "{}"
  cookies : String := "[]"
  last_accessed : ℚ := 0
  access_count : ℕ := 0
  success_rate : ℚ := 0
  custom_data : String := "{}"
  extraction_patterns : String := "{}"
  performance_metrics : List (String × PerfVal) := []
  timing_patterns : String := "{}"
  site_characteristics : String := "{}"
  anti_detection_rules : String := "{}"
  optimal_selectors : String := "{}"
  deriving Repr, DecidableEq

/-- The store: rows of the `site_memory` table keyed by origin. -/
def SiteStore : Type := List (String × SiteMemory)

/-- `SiteMemoryManager.get_site_memory`: the `SELECT ... WHERE site_url = ?`
row fetch; the returned dataclass carries the queried `site_url` (the Python
code passes the query parameter into the constructor). -/
def SiteStore.get (store : SiteStore) (site_url : String) :
    Option SiteMemory :=
  (List.lookup site_url store).map fun m => { m with site_url := site_url }

/-- `SiteMemoryManager.save_site_memory`: `INSERT OR REPLACE` of the row;
returns `True` on success. -/
def SiteStore.save (store : SiteStore) (m : SiteMemory) :
    Bool × SiteStore :=
  (true, dictInsert store m.site_url m)

/-- The merge of one `performance_data` entry in `update_access_stats`
(lines 288-299): timing keys keep the last 100 samples and a running
average; other keys are overwritten. -/
def mergePerfEntry (metrics : List (String × PerfVal)) (key : String)
    (value : ℚ) : List (String × PerfVal) :=
  if key = "load_time" ∨ key = "dom_ready_time" ∨ key = "response_time" then
    let existing :=
      match metrics.lookup key with
      | some (PerfVal.samples xs) => xs
      | _ => []
    let appended := existing ++ [value]
    let trimmed :=
      if appended.length > 100 then
        appended.drop (appended.length - 100)
      else appended
    dictInsert
      (dictInsert metrics key (PerfVal.samples trimmed))
      (key ++ "_avg")
      (PerfVal.num (trimmed.sum / trimmed.length))
  else
    dictInsert metrics key (PerfVal.num value)

/-- `SiteMemoryManager.update_access_stats(site_url, success,
performance_data)` (lines 263-304): load the row; if absent return `False`
without touching the store; otherwise bump `access_count`, stamp
`last_accessed`, fold the success into the EMA with α = 0.1, merge any
performance data, and save. -/
def SiteStore.updateAccessStats (store : SiteStore) (site_url : String)
    (success : Bool) (now : ℚ)
    (performance_data : Option (List (String × ℚ))) : Bool × SiteStore :=
  match store.get site_url with
  | none => (false, store)
  | some m =>
      let m1 :=
        { m with
          access_count := m.access_count + 1
          last_accessed := now
          success_rate :=
            (1 - 1/10) * m.success_rate +
              (1/10) * (if success then 1 else 0) }
      let m2 :=
        match performance_data with
        | none => m1
        | some entries =>
            { m1 with
              performance_metrics :=
                entries.foldl
                  (fun acc e => mergePerfEntry acc e.1 e.2)
                  m1.performance_metrics }
      SiteStore.save store m2

/-! ## Content cleaning (`ContentProcessor.clean_content_basic`)

`src/utils/content_processor.py`, lines 112-145.  The function is a pipeline
of regex substitutions over the input string, modelled on `List Char`:

1. `re.sub(r'\s+', ' ', content)` — `collapseWs`;
2. `re.sub(r'\b(Home|Login|Sign Up|Menu|Search|More|Categories|Topics|Latest|Hot)\b', '', ..., IGNORECASE|MULTILINE)` — `stripNavTokens`;
3. `re.sub(r'\b(©|Copyright|All rights reserved|Privacy Policy|Terms of Service)\b.*$', '', ..., IGNORECASE|MULTILINE)` — `stripFooterTokens`;
4. `re.sub(r'\.{3,}', '...', content)` — `squeezeDots`;
5. `re.sub(r'\s+([.!?])', r'\1', content)` — `dropWsBeforePunct`;
6. split on newlines, strip each line, drop empties, rejoin, strip —
   `cleanLines` (with Python `str.strip` as `pyStrip`).

Word characters are `[A-Za-z0-9_]`, whitespace is ASCII `\s`; matching is
case-insensitive via `Char.toLower`.  The scanners carry the previous input
character for `\b` tests and a fuel equal to the input length (each step
consumes at least one character, so the fuel never runs out). -/

/-- ASCII `\s`: space, tab, newline, carriage return, vertical tab, form
feed (also the set stripped by `str.strip`). -/
def isPyWs (c : Char) : Bool :=
  c == ' ' || c == '\t' || c == '\n' || c == '\r' || c == '\x0b' || c == '\x0c'

/-- Regex word character `\w` (ASCII). -/
def isWordChar (c : Char) : Bool :=
  c.isAlpha || c.isDigit || c == '_'

/-- The characters captured by `([.!?])`. -/
def isPunctTarget (c : Char) : Bool :=
  c == '.' || c == '!' || c == '?'

/-- `re.sub(r'\s+', ' ', s)`: every maximal whitespace run becomes a single
space.  The flag records whether the scanner is inside a run. -/
def collapseWsGo : Bool → List Char → List Char
  | _, [] => []
  | inRun, c :: cs =>
      if isPyWs c then
        if inRun then collapseWsGo true cs
        else ' ' :: collapseWsGo true cs
      else c :: collapseWsGo false cs

def collapseWs (l : List Char) : List Char :=
  collapseWsGo false l

/-- Alternatives of the navigation-token pattern, in regex order. -/
def navTokens1 : List (List Char) :=
  ["Home".data, "Login".data, "Sign Up".data, "Menu".data, "Search".data,
    "More".data, "Categories".data, "Topics".data, "Latest".data,
    "Hot".data]

/-- Word alternatives of the footer pattern (the `©` alternative has its own
boundary conditions and is handled separately). -/
def navTokens2 : List (List Char) :=
  ["Copyright".data, "All rights reserved".data, "Privacy Policy".data,
    "Terms of Service".data]

/-- Case-insensitive literal match of `tok` at the head of `l`; returns the
last consumed input character (for `\b` tracking) and the rest.  `lastc`
seeds the accumulator and is only returned for an empty token (the token
lists only hold nonempty tokens). -/
def tokenMatchCIAux : List Char → List Char → Char → Option (Char × List Char)
  | [], rest, lastc => some (lastc, rest)
  | _ :: _, [], _ => none
  | t :: ts, c :: cs, _ =>
      if t.toLower == c.toLower then tokenMatchCIAux ts cs c else none

def tokenMatchCI (tok l : List Char) : Option (Char × List Char) :=
  tokenMatchCIAux tok l ' '

/-- `\b` seen from the left of the next position: the position after the
match must not fall inside a word (all tokens end in word characters). -/
def afterBoundary : List Char → Bool
  | [] => true
  | c :: _ => !isWordChar c

/-- `\b` before a token that starts with a word character: start of input or
a non-word previous character. -/
def beforeBoundary : Option Char → Bool
  | none => true
  | some p => !isWordChar p

/-- Try the alternatives in regex order; an alternative whose trailing `\b`
fails backtracks into the next one. -/
def tryTokens (toks : List (List Char)) (l : List Char) :
    Option (Char × List Char) :=
  match toks with
  | [] => none
  | tok :: rest =>
      match tokenMatchCI tok l with
      | some (lastc, after) =>
          if afterBoundary after then some (lastc, after) else tryTokens rest l
      | none => tryTokens rest l

/-- Scanner for pattern 2: each matched alternative is deleted, scanning
resumes right after it with the last consumed character as the new `prev`;
fuel is the remaining input length. -/
def stripNavTokensGo : ℕ → Option Char → List Char → List Char
  | _, _, [] => []
  | 0, _, l => l
  | fuel + 1, prev, c :: cs =>
      match (if beforeBoundary prev then tryTokens navTokens1 (c :: cs)
        else none) with
      | some (lastc, rest) => stripNavTokensGo fuel (some lastc) rest
      | none => c :: stripNavTokensGo fuel (some c) cs

def stripNavTokens (l : List Char) : List Char :=
  stripNavTokensGo l.length none l

/-- Does the footer pattern match at this position?  The `©` alternative
(`©` is not a word character) needs a word character on both sides for its
two `\b`; the word alternatives need a non-word (or absent) character before
and a non-word (or end) after. -/
def footerMatchesAt (prev : Option Char) (l : List Char) : Bool :=
  (match l with
   | c :: rest =>
       c == '©' &&
         (match prev with
          | some p => isWordChar p
          | none => false) &&
         (match rest with
          | r :: _ => isWordChar r
          | [] => false)
   | [] => false) ||
  (beforeBoundary prev &&
    (tryTokens navTokens2 l).isSome)

/-- Scanner for pattern 3: at a match, `.*$` deletes to the end of the line;
scanning resumes at the newline (if any). -/
def stripFooterTokensGo : ℕ → Option Char → List Char → List Char
  | _, _, [] => []
  | 0, _, l => l
  | fuel + 1, prev, c :: cs =>
      if footerMatchesAt prev (c :: cs) then
        match (c :: cs).dropWhile (fun x => !(x == '\n')) with
        | [] => []
        | nl :: rest2 => nl :: stripFooterTokensGo fuel (some nl) rest2
      else c :: stripFooterTokensGo fuel (some c) cs

def stripFooterTokens (l : List Char) : List Char :=
  stripFooterTokensGo l.length none l

/-- First three characters are dots. -/
def dotRun3 : List Char → Bool
  | a :: b :: c :: _ => a == '.' && b == '.' && c == '.'
  | _ => false

/-- No four consecutive dots anywhere. -/
def no4Dots : List Char → Bool
  | [] => true
  | c :: cs => !(c == '.' && dotRun3 cs) && no4Dots cs

def dotsOut (run : ℕ) : List Char :=
  List.replicate (min run 3) '.'

/-- `re.sub(r'\.{3,}', '...', s)`: every maximal dot run of length ≥ 3
becomes exactly three dots.  `run` is the length of the pending run. -/
def squeezeDotsGo (run : ℕ) : List Char → List Char
  | [] => dotsOut run
  | c :: cs =>
      if c == '.' then squeezeDotsGo (run + 1) cs
      else dotsOut run ++ c :: squeezeDotsGo 0 cs

def squeezeDots (l : List Char) : List Char :=
  squeezeDotsGo 0 l

/-- `re.sub(r'\s+([.!?])', r'\1', s)`: a whitespace run immediately followed
by `.`, `!` or `?` is deleted (the punctuation kept); `pend` is the pending
whitespace run, in reverse. -/
def dropWsBeforePunctGo (pend : List Char) : List Char → List Char
  | [] => pend.reverse
  | c :: cs =>
      if isPyWs c then dropWsBeforePunctGo (c :: pend) cs
      else if isPunctTarget c && !pend.isEmpty then
        c :: dropWsBeforePunctGo [] cs
      else pend.reverse ++ c :: dropWsBeforePunctGo [] cs

def dropWsBeforePunct (l : List Char) : List Char :=
  dropWsBeforePunctGo [] l

/-- Python `str.strip()`. -/
def pyStrip (l : List Char) : List Char :=
  ((l.dropWhile isPyWs).reverse.dropWhile isPyWs).reverse

/-- `content.split('\n')` on character lists. -/
def splitOnNl : List Char → List (List Char)
  | [] => [[]]
  | c :: cs =>
      if c == '\n' then [] :: splitOnNl cs
      else
        match splitOnNl cs with
        | [] => [[c]]
        | line :: rest => (c :: line) :: rest

/-- `'\n'.join(lines)`. -/
def joinNl : List (List Char) → List Char
  | [] => []
  | [l] => l
  | l :: ls => l ++ '\n' :: joinNl ls

/-- `lines = [line.strip() for line in content.split('\n') if line.strip()];
content = '\n'.join(lines); return content.strip()`. -/
def cleanLines (l : List Char) : List Char :=
  pyStrip (joinNl (((splitOnNl l).map pyStrip).filter (fun x => !x.isEmpty)))

/-- `ContentProcessor.clean_content_basic`: the whole pipeline (with the
`if not content: return ""` guard). -/
def cleanContentBasic (s : List Char) : List Char :=
  if s.isEmpty then []
  else
    cleanLines
      (dropWsBeforePunct
        (squeezeDots (stripFooterTokens (stripNavTokens (collapseWs s)))))

/-- Does the list start with a whitespace character? -/
def headIsWs : List Char → Bool
  | [] => false
  | c :: _ => isPyWs c

/-- Every whitespace character is a plain space. -/
def WsSp (l : List Char) : Prop :=
  ∀ c ∈ l, isPyWs c = true → c = ' '

/-- No newline present. -/
def NoNl (l : List Char) : Prop :=
  '\n' ∉ l

/-- No two adjacent whitespace characters. -/
def NoAdjWs (l : List Char) : Prop :=
  l.Chain' (fun a b => ¬(isPyWs a = true ∧ isPyWs b = true))

/-- No four consecutive dots, as a proposition. -/
def No4 (l : List Char) : Prop :=
  no4Dots l = true

theorem PacerState.default_bounded : PacerState.Bounded PacerState.default := by
  refine ⟨by norm_num [PacerState.default], by norm_num [PacerState.default],
    by norm_num [PacerState.default], by norm_num [PacerState.default]⟩

/-- Sanity condition on the pacer's fixed parameters; it holds for the
constructor defaults and is untouched by updates. -/
def PacerState.ParamsOK (st : PacerState) : Prop :=
  0 ≤ st.min_delay ∧ st.min_delay ≤ st.max_delay ∧
    0 ≤ st.success_increment ∧ 0 ≤ st.failure_decrement

theorem PacerState.default_paramsOK : PacerState.ParamsOK PacerState.default := by
  refine ⟨by norm_num [PacerState.default], by norm_num [PacerState.default],
    by norm_num [PacerState.default], by norm_num [PacerState.default]⟩

theorem PacerState.update_bounded (st : PacerState) (success : Bool)
    (hb : st.Bounded) (hp : st.ParamsOK) :
    (st.update success).Bounded := by
  obtain ⟨h1, h2, h3, h4⟩ := hb
  obtain ⟨hmin, hmm, hinc, hdec⟩ := hp
  cases success with
  | false =>
      refine ⟨?_, ?_, ?_, ?_⟩
      · simp only [PacerState.update, Bool.false_eq_true, if_false]
        exact le_min hmm (le_trans h1 (by nlinarith))
      · simp only [PacerState.update, Bool.false_eq_true, if_false]
        exact min_le_left _ _
      · simp only [PacerState.update, Bool.false_eq_true, if_false]
        exact le_max_left _ _
      · simp only [PacerState.update, Bool.false_eq_true, if_false]
        exact max_le (by norm_num) (by linarith)
  | true =>
      refine ⟨?_, ?_, ?_, ?_⟩
      · simp only [PacerState.update, if_true]
        exact le_max_left _ _
      · simp only [PacerState.update, if_true]
        refine max_le hmm ?_
        nlinarith
      · simp only [PacerState.update, if_true]
        exact le_min (by norm_num) (by linarith)
      · simp only [PacerState.update, if_true]
        exact min_le_left _ _

theorem PacerState.update_paramsOK (st : PacerState) (success : Bool)
    (hp : st.ParamsOK) : (st.update success).ParamsOK := by
  obtain ⟨hmin, hmm, hinc, hdec⟩ := hp
  cases success <;> exact ⟨hmin, hmm, hinc, hdec⟩

theorem PacerState.run_bounded (events : List Bool) (st : PacerState)
    (hb : st.Bounded) (hp : st.ParamsOK) :
    (st.run events).Bounded := by
  induction events generalizing st with
  | nil => exact hb
  | cons e es ih =>
      simpa [PacerState.run, List.foldl] using
        ih (st.update e) (PacerState.update_bounded st e hb hp)
          (PacerState.update_paramsOK st e hp)

/-- C4: starting from the pacer's default state, after every sequence of
success/failure updates the delay stays within `[min_delay, max_delay]` and
the success rate within `[0.1, 1.0]`; each success sets the success rate to
`min 1 (s + Δ_up)` and the delay to `max min_delay (delay * 0.9)`; each
failure sets the success rate to `max 0.1 (s - Δ_down)` and the delay to
`min max_delay (delay * 2)`; and the delay returned by `get_next_delay` is
the updated `current_delay` plus the uniform jitter drawn from `[0, 1]`. -/
theorem C4_pacer_invariants :
    (∀ events : List Bool, (PacerState.default.run events).Bounded) ∧
    (∀ st : PacerState,
      (st.update true).success_rate
          = min 1 (st.success_rate + st.success_increment) ∧
      (st.update true).current_delay
          = max st.min_delay (st.current_delay * (9/10)) ∧
      (st.update false).success_rate
          = max (1/10) (st.success_rate - st.failure_decrement) ∧
      (st.update false).current_delay
          = min st.max_delay (st.current_delay * 2)) ∧
    (∀ (st : PacerState) (success : Bool) (jitter : ℚ),
      (0 ≤ jitter ∧ jitter ≤ 1) →
        (st.getNextDelay success jitter).1 = st.update success ∧
        (st.getNextDelay success jitter).2
            = (st.update success).current_delay + jitter ∧
        (st.update success).current_delay ≤ (st.getNextDelay success jitter).2 ∧
        (st.getNextDelay success jitter).2
            ≤ (st.update success).current_delay + 1) := by
  refine ⟨?_, ?_, ?_⟩
  · intro events
    exact PacerState.run_bounded events PacerState.default
      PacerState.default_bounded PacerState.default_paramsOK
  · intro st
    refine ⟨?_, ?_, ?_, ?_⟩ <;> simp [PacerState.update]
  · intro st success jitter hj
    refine ⟨rfl, rfl, by simpa [PacerState.getNextDelay] using hj.1,
      by simpa [PacerState.getNextDelay] using hj.2⟩

/-- Witness for C4 at a concrete run: three failures then a success, with a
concrete jitter of `1/2`. -/
theorem C4_pacer_invariants_witness :
    (PacerState.default.run [false, false, false, true]).Bounded ∧
    (PacerState.default.getNextDelay false (1/2)).2 = 4 + 1/2 := by
  constructor
  · exact C4_pacer_invariants.1 [false, false, false, true]
  · have h := (C4_pacer_invariants.2.2 PacerState.default false (1/2)
      (by norm_num)).2.1
    rw [h]
    norm_num [PacerState.update, PacerState.default]

/-- C6 counterexample: the claim says every operation accepts any timeout in
the range 1 s – 300 s, but `ExtractRequest` rejects 100000 ms, which lies in
that range (its pydantic bound is `le=60000`). -/
theorem C6_timeout_counterexample :
    ExtractRequest.timeoutOk 100000 = false ∧
      ((1000 : ℤ) ≤ 100000 ∧ (100000 : ℤ) ≤ 300000) := by
  refine ⟨by decide, by decide, by decide⟩

/-- C6 (amended): a supplied timeout is accepted by `NavigateRequest` iff it
lies in `[1000, 300000]` ms, and by `ExtractRequest`, `InteractRequest` and
`ScreenshotRequest` iff it lies in `[1000, 60000]` ms; in particular 999 ms
and 300001 ms are rejected by all four. -/
theorem C6_timeout_bounds (t : ℤ) :
    (NavigateRequest.timeoutOk t = true ↔ 1000 ≤ t ∧ t ≤ 300000) ∧
    (ExtractRequest.timeoutOk t = true ↔ 1000 ≤ t ∧ t ≤ 60000) ∧
    (InteractRequest.timeoutOk t = true ↔ 1000 ≤ t ∧ t ≤ 60000) ∧
    (ScreenshotRequest.timeoutOk t = true ↔ 1000 ≤ t ∧ t ≤ 60000) ∧
    NavigateRequest.timeoutOk 999 = false ∧
    NavigateRequest.timeoutOk 300001 = false ∧
    ExtractRequest.timeoutOk 999 = false ∧
    ExtractRequest.timeoutOk 300001 = false ∧
    InteractRequest.timeoutOk 999 = false ∧
    InteractRequest.timeoutOk 300001 = false ∧
    ScreenshotRequest.timeoutOk 999 = false ∧
    ScreenshotRequest.timeoutOk 300001 = false := by
  refine ⟨?_, ?_, ?_, ?_, by decide, by decide, by decide, by decide,
    by decide, by decide, by decide, by decide⟩ <;>
    simp [NavigateRequest.timeoutOk, ExtractRequest.timeoutOk,
      InteractRequest.timeoutOk, ScreenshotRequest.timeoutOk,
      Bool.and_eq_true, decide_eq_true_eq]

/-- C7 counterexample: `sess_ZZZZZZZZ` does not match `sess_[0-9a-f]` times 8,
yet the request schemas accept it (they only check the `sess_` prefix), so
the request is not rejected with `ValidationError` before session lookup. -/
theorem C7_session_id_counterexample :
    schemasValidateSessionId "sess_ZZZZZZZZ" = true ∧
      validateSessionId "sess_ZZZZZZZZ" = false := by
  refine ⟨by decide, by decide⟩

/-- C7 (amended): the request schemas accept a session id iff it is nonempty
and starts with the literal `sess_`; the full pattern `sess_` plus exactly 8
lowercase hex characters is enforced only by the standalone helper
`utils.validators.validate_session_id`, which accepts strictly fewer strings
than the schemas do. -/
theorem C7_session_id_validation (v : String) :
    (schemasValidateSessionId v = true ↔
      v.data ≠ [] ∧ "sess_".data <+: v.data) ∧
    (validateSessionId v = true ↔
      ∃ r, v.data = "sess_".data ++ r ∧ r.length = 8 ∧
        r.all isLowerHexDigit = true) ∧
    (validateSessionId v = true → schemasValidateSessionId v = true) := by
  have hempty : (v = "") ↔ v.data = [] := by
    constructor
    · intro h; simp [h]
    · intro h
      cases v with
      | mk d =>
          simp only at h
          subst h
          rfl
  have h1 : schemasValidateSessionId v = true ↔
      v.data ≠ [] ∧ "sess_".data <+: v.data := by
    simp [schemasValidateSessionId, Bool.and_eq_true,
      List.isPrefixOf_iff_prefix, List.isEmpty_iff]
  have h2 : validateSessionId v = true ↔
      ∃ r, v.data = "sess_".data ++ r ∧ r.length = 8 ∧
        r.all isLowerHexDigit = true := by
    constructor
    · intro h
      unfold validateSessionId at h
      split at h
      · exact absurd h (by simp)
      · simp only [Bool.and_eq_true, List.isPrefixOf_iff_prefix,
          beq_iff_eq] at h
        obtain ⟨⟨hpre, hlen⟩, hall⟩ := h
        obtain ⟨r, hr⟩ := hpre
        refine ⟨r, hr.symm, ?_, ?_⟩
        · have : v.data.drop 5 = r := by
            rw [← hr]
            exact List.drop_left "sess_".data r
          rwa [this] at hlen
        · have : v.data.drop 5 = r := by
            rw [← hr]
            exact List.drop_left "sess_".data r
          rwa [this] at hall
    · rintro ⟨r, hr, hlen, hall⟩
      have hne : v ≠ "" := by
        intro hv
        rw [hempty] at hv
        simp [hv] at hr
      unfold validateSessionId
      rw [if_neg hne]
      have hdrop : v.data.drop 5 = r := by
        rw [hr]
        exact List.drop_left "sess_".data r
      simp [Bool.and_eq_true, List.isPrefixOf_iff_prefix, hdrop, hlen, hall,
        hr, List.prefix_append]
  refine ⟨h1, h2, ?_⟩
  intro h
  obtain ⟨r, hr, _, _⟩ := h2.mp h
  rw [h1]
  exact ⟨by simp [hr], by simp [hr, List.prefix_append]⟩


/-! ### Registry helper lemmas -/

theorem dictInsert_length_le {β : Type} (l : List (String × β)) (k : String)
    (v : β) : (dictInsert l k v).length ≤ l.length + 1 := by
  unfold dictInsert
  split
  · simp
  · simp

theorem dictRemove_length_le {β : Type} (l : List (String × β)) (k : String) :
    (dictRemove l k).length ≤ l.length :=
  List.length_filter_le _ l

theorem dictRemove_lookup_self {β : Type} (l : List (String × β)) (k : String) :
    (dictRemove l k).lookup k = none := by
  rw [List.lookup_eq_none_iff]
  intro p hp
  have hp' := (List.mem_filter.mp hp).2
  simp only [Bool.not_eq_true'] at hp'
  rw [beq_eq_false_iff_ne] at hp'
  simp only [bne_iff_ne, ne_eq]
  exact Ne.symm hp'

theorem lookup_map_replace {β : Type} (k k' : String) (h : k' ≠ k) (v : β)
    (l : List (String × β)) :
    (l.map (fun p => if p.1 == k then (k, v) else p)).lookup k'
      = l.lookup k' := by
  induction l with
  | nil => rfl
  | cons hd tl ih =>
      obtain ⟨a, b⟩ := hd
      by_cases hak : a = k
      · subst hak
        have h1 : (k' == a) = false := by simp [h]
        simp only [List.map_cons, beq_self_eq_true, if_true, List.lookup_cons,
          h1]
        exact ih
      · have hb : (a == k) = false := by simp [hak]
        by_cases hk' : k' = a
        · subst hk'
          simp [List.map_cons, hak, hb, List.lookup_cons]
        · have h2 : (k' == a) = false := by simp [hk']
          simp only [List.map_cons, hb, Bool.false_eq_true, if_false,
            List.lookup_cons, h2]
          exact ih

theorem lookup_none_of_not_any {β : Type} (l : List (String × β)) (k : String)
    (h : l.any (fun p => p.1 == k) = false) : l.lookup k = none := by
  induction l with
  | nil => rfl
  | cons hd tl ih =>
      obtain ⟨a, b⟩ := hd
      simp only [List.any_cons] at h
      have h1 : (a == k) = false := by
        cases hx : (a == k) with
        | false => rfl
        | true => rw [hx] at h; simp at h
      have h2 : tl.any (fun p => p.1 == k) = false := by
        cases hx : tl.any (fun p => p.1 == k) with
        | false => rfl
        | true => rw [hx] at h; simp at h
      have hka : (k == a) = false := by
        rw [beq_eq_false_iff_ne] at h1 ⊢
        exact Ne.symm h1
      simp only [List.lookup_cons, hka]
      exact ih h2

theorem dictInsert_lookup_self {β : Type} (l : List (String × β)) (k : String)
    (v : β) : (dictInsert l k v).lookup k = some v := by
  unfold dictInsert
  split
  · rename_i hany
    induction l with
    | nil => simp at hany
    | cons hd tl ih =>
        obtain ⟨a, b⟩ := hd
        by_cases hak : a = k
        · subst hak
          simp only [List.map_cons, beq_self_eq_true, if_true]
          exact List.lookup_cons_self
        · have hb : (a == k) = false := by simp [hak]
          have htl : tl.any (fun p => p.1 == k) = true := by
            rcases List.any_eq_true.mp hany with ⟨p, hp, hpk⟩
            rcases List.mem_cons.mp hp with hp1 | hp2
            · subst hp1; exact absurd hpk (by simp [hb])
            · exact List.any_eq_true.mpr ⟨p, hp2, hpk⟩
          have hk2 : (k == a) = false := by
            rw [beq_eq_false_iff_ne] at hb ⊢
            exact Ne.symm hb
          simp only [List.map_cons, hb, Bool.false_eq_true, if_false,
            List.lookup_cons, hk2]
          exact ih htl
  · rename_i hany
    have hany' : l.any (fun p => p.1 == k) = false := by
      cases hx : l.any (fun p => p.1 == k) with
      | false => rfl
      | true => exact absurd hx hany
    have hnone : l.lookup k = none := lookup_none_of_not_any l k hany'
    rw [List.lookup_append, hnone]
    simp

theorem dictInsert_lookup_ne {β : Type} (l : List (String × β)) (k k' : String)
    (h : k' ≠ k) (v : β) :
    (dictInsert l k v).lookup k' = l.lookup k' := by
  unfold dictInsert
  split
  · exact lookup_map_replace k k' h v l
  · have h1 : (k' == k) = false := by simp [h]
    rw [List.lookup_append]
    simp only [List.lookup_cons, h1, List.lookup_nil]
    cases l.lookup k' <;> rfl

/-- After an internal close of a registered session, the record is gone,
whether or not the context teardown failed. -/
theorem closeSessionInternal_removes (st : RegistryState) (sid : String)
    (sd : SessionData) (hfind : st.find? sid = some sd) (b : Bool) :
    ((SessionService.closeSessionInternal st sid b).2).find? sid = none := by
  unfold SessionService.closeSessionInternal
  rw [hfind]
  by_cases hc : sd.context.context_id ∈ st.browser_contexts
  · simp only [hc, if_true, RegistryState.find?]
    exact dictRemove_lookup_self _ _
  · simp only [hc, if_false, RegistryState.find?]
    exact dictRemove_lookup_self _ _

/-- An internal close never grows the registry. -/
theorem closeSessionInternal_length_le (st : RegistryState) (sid : String)
    (b : Bool) :
    ((SessionService.closeSessionInternal st sid b).2).active_sessions.length
      ≤ st.active_sessions.length := by
  unfold SessionService.closeSessionInternal
  cases hf : st.find? sid with
  | none => exact le_refl _
  | some sd =>
      by_cases hc : sd.context.context_id ∈ st.browser_contexts
      · simp only [hc, if_true]
        exact dictRemove_length_le _ _
      · simp only [hc, if_false]
        exact dictRemove_length_le _ _

/-- `create_session` cannot push the active-session count past the cap. -/
theorem createSession_length_le (max_sessions : ℕ) (st : RegistryState)
    (f : String) (c p : ℕ) (cfg : SessionConfig) (now : ℚ)
    (u : Option String) (h : st.active_sessions.length ≤ max_sessions) :
    (SessionService.createSession max_sessions st f c p cfg now u).2.active_sessions.length
      ≤ max_sessions := by
  unfold SessionService.createSession
  by_cases hge : st.active_sessions.length ≥ max_sessions
  · rw [if_pos hge]
    exact h
  · rw [if_neg hge]
    push_neg at hge
    exact le_trans (dictInsert_length_le st.active_sessions f _) hge

/-- One registry operation keeps the active-session count at or below cap. -/
theorem applyOp_length_le (max_sessions : ℕ) (cfg : SessionConfig) (now : ℚ)
    (st : RegistryState) (op : SessionService.RegistryOp)
    (h : st.active_sessions.length ≤ max_sessions) :
    (SessionService.applyOp max_sessions cfg now st op).active_sessions.length
      ≤ max_sessions := by
  cases op with
  | create f c p =>
      exact createSession_length_le max_sessions st f c p cfg now none h
  | close sid =>
      exact le_trans (closeSessionInternal_length_le st sid false) h

/-- Closing an unknown id raises `SessionNotFoundError` and leaves the
registry untouched. -/
theorem closeSessionInternal_not_found (st : RegistryState) (sid : String)
    (h : st.find? sid = none) (b : Bool) :
    SessionService.closeSessionInternal st sid b
      = (Except.error (SurfError.sessionNotFound sid), st) := by
  unfold SessionService.closeSessionInternal
  rw [h]

/-! ### C1: global session cap -/

/-- C1: starting from the empty registry, after any sequence of create/close
operations the active-session count never exceeds `max_sessions`; and
`create_session` raises `ResourceLimitError("sessions", cap, current)`
exactly when the count has already reached the cap, otherwise it registers
and returns a fresh session under the requested id. -/
theorem C1_session_cap (max_sessions : ℕ) (cfg : SessionConfig) (now : ℚ)
    (ops : List SessionService.RegistryOp) :
    (SessionService.runOps max_sessions cfg now ops).active_sessions.length
        ≤ max_sessions ∧
    (∀ (st : RegistryState) (f : String) (c p : ℕ) (u : Option String),
      (max_sessions ≤ st.active_sessions.length →
        SessionService.createSession max_sessions st f c p cfg now u =
          (Except.error
              (SurfError.resourceLimit "sessions" max_sessions
                st.active_sessions.length),
            st)) ∧
      (st.active_sessions.length < max_sessions →
        ∃ sd : SessionData,
          (SessionService.createSession max_sessions st f c p cfg now u).1
              = Except.ok sd ∧
          sd.session_id = f ∧
          (SessionService.createSession max_sessions st f c p cfg now u).2.find? f
              = some sd)) := by
  constructor
  · have key : ∀ (ops' : List SessionService.RegistryOp) (st : RegistryState),
        st.active_sessions.length ≤ max_sessions →
        (ops'.foldl (SessionService.applyOp max_sessions cfg now) st).active_sessions.length
          ≤ max_sessions := by
      intro ops'
      induction ops' with
      | nil => intro st h; exact h
      | cons op rest ih =>
          intro st h
          exact ih _ (applyOp_length_le max_sessions cfg now st op h)
    exact key ops {} (by simp)
  · intro st f c p u
    constructor
    · intro h
      unfold SessionService.createSession
      rw [if_pos h]
    · intro h
      unfold SessionService.createSession
      rw [if_neg (by omega)]
      refine ⟨_, rfl, rfl, ?_⟩
      simp only [RegistryState.find?]
      exact dictInsert_lookup_self _ _ _

/-- Witness for C1 with cap 1: the first create from the empty registry
succeeds and registers the session, the second create fails with
`ResourceLimitError("sessions", 1, 1)`. -/
theorem C1_session_cap_witness :
    (SessionService.runOps 1 { user_agent := "UA" } 0
        [SessionService.RegistryOp.create "sess_aaaaaaaa" 1 2,
          SessionService.RegistryOp.create "sess_bbbbbbbb" 3 4]).active_sessions.length
        ≤ 1 ∧
    (SessionService.createSession 1
        (SessionService.runOps 1 { user_agent := "UA" } 0
          [SessionService.RegistryOp.create "sess_aaaaaaaa" 1 2])
        "sess_bbbbbbbb" 3 4 { user_agent := "UA" } 0 none).1
      = Except.error (SurfError.resourceLimit "sessions" 1 1) := by
  constructor
  · exact (C1_session_cap 1 { user_agent := "UA" } 0 _).1
  · have h := ((C1_session_cap 1 { user_agent := "UA" } 0 []).2
      (SessionService.runOps 1 { user_agent := "UA" } 0
        [SessionService.RegistryOp.create "sess_aaaaaaaa" 1 2])
      "sess_bbbbbbbb" 3 4 none).1 (by decide)
    rw [h]
    rfl

/-! ### C2: `get_session` validation and activity stamping -/

/-- C2: `get_session` raises `SessionNotFoundError` when the id is absent;
when the record exists but `now - created_at` exceeds the TTL, or a quota
counter exceeds its limit, the session is closed and removed before
`InvalidSessionError` is raised; on success `last_activity` is stamped with
`now`, so `last_activity ≥ now` afterwards. -/
theorem C2_get_session (ttl : ℚ) (lim : SessionLimits) (st : RegistryState)
    (now : ℚ) (sid : String) :
    (st.find? sid = none →
      SessionService.getSession ttl lim st now sid
        = (Except.error (SurfError.sessionNotFound sid), st)) ∧
    (∀ sd : SessionData, st.find? sid = some sd →
      (now - sd.context.created_at > ttl →
        (SessionService.getSession ttl lim st now sid).1
            = Except.error
                (SurfError.invalidSession sid InvalidReason.expired) ∧
        ((SessionService.getSession ttl lim st now sid).2).find? sid
            = none) ∧
      (¬ now - sd.context.created_at > ttl →
        lim.checkLimits sd.stats ≠ [] →
        (SessionService.getSession ttl lim st now sid).1
            = Except.error
                (SurfError.invalidSession sid
                  (InvalidReason.limitsExceeded (lim.checkLimits sd.stats))) ∧
        ((SessionService.getSession ttl lim st now sid).2).find? sid
            = none) ∧
      (¬ now - sd.context.created_at > ttl →
        lim.checkLimits sd.stats = [] →
        ∃ sd' : SessionData,
          (SessionService.getSession ttl lim st now sid).1 = Except.ok sd' ∧
          sd'.context.last_activity = now ∧
          now ≤ sd'.context.last_activity ∧
          ((SessionService.getSession ttl lim st now sid).2).find? sid
              = some sd')) := by
  constructor
  · intro h
    unfold SessionService.getSession
    rw [h]
  · intro sd hf
    refine ⟨?_, ?_, ?_⟩
    · intro hexp
      unfold SessionService.getSession
      rw [hf]
      simp only [if_pos hexp]
      exact ⟨by trivial, closeSessionInternal_removes st sid sd hf false⟩
    · intro hexp hviol
      unfold SessionService.getSession
      rw [hf]
      simp only [if_neg hexp, if_pos hviol]
      exact ⟨by trivial, closeSessionInternal_removes st sid sd hf false⟩
    · intro hexp hok
      unfold SessionService.getSession
      rw [hf]
      simp only [if_neg hexp,
        if_neg (show ¬ lim.checkLimits sd.stats ≠ [] by simp [hok])]
      refine ⟨_, rfl, rfl, le_refl now, ?_⟩
      simp only [RegistryState.find?]
      exact dictInsert_lookup_self _ _ _

/-- Witness for C2 on a registry holding one fresh session: at time 5 with
TTL 300 and default limits, `get_session` succeeds and stamps
`last_activity = 5`. -/
theorem C2_get_session_witness :
    (({ active_sessions :=
          [("sess_ab12cd34",
            { session_id := "sess_ab12cd34"
              config := { user_agent := "UA" }
              context :=
                { context_id := 7, page_id := 8, created_at := 0,
                  last_activity := 0 } })]
        browser_contexts := [7] } : RegistryState).find? "sess_ab12cd34"
      = some
          { session_id := "sess_ab12cd34"
            config := { user_agent := "UA" }
            context :=
              { context_id := 7, page_id := 8, created_at := 0,
                last_activity := 0 } }) ∧
    ¬ ((5 : ℚ) - 0 > 300) ∧
    (SessionLimits.checkLimits {} {} = []) ∧
    (∃ sd' : SessionData,
      (SessionService.getSession 300 {}
          { active_sessions :=
              [("sess_ab12cd34",
                { session_id := "sess_ab12cd34"
                  config := { user_agent := "UA" }
                  context :=
                    { context_id := 7, page_id := 8, created_at := 0,
                      last_activity := 0 } })]
            browser_contexts := [7] }
          5 "sess_ab12cd34").1 = Except.ok sd' ∧
      sd'.context.last_activity = 5 ∧
      (5 : ℚ) ≤ sd'.context.last_activity ∧
      ((SessionService.getSession 300 {}
          { active_sessions :=
              [("sess_ab12cd34",
                { session_id := "sess_ab12cd34"
                  config := { user_agent := "UA" }
                  context :=
                    { context_id := 7, page_id := 8, created_at := 0,
                      last_activity := 0 } })]
            browser_contexts := [7] }
          5 "sess_ab12cd34").2).find? "sess_ab12cd34" = some sd') := by
  refine ⟨by decide, by norm_num,
    by norm_num [SessionLimits.checkLimits], ?_⟩
  exact ((C2_get_session 300 {}
      { active_sessions :=
          [("sess_ab12cd34",
            { session_id := "sess_ab12cd34"
              config := { user_agent := "UA" }
              context :=
                { context_id := 7, page_id := 8, created_at := 0,
                  last_activity := 0 } })]
        browser_contexts := [7] }
      5 "sess_ab12cd34").2
    { session_id := "sess_ab12cd34"
      config := { user_agent := "UA" }
      context :=
        { context_id := 7, page_id := 8, created_at := 0,
          last_activity := 0 } }
    (by decide)).2.2 (by norm_num)
    (by norm_num [SessionLimits.checkLimits])

/-! ### C3: idempotent close with single context teardown -/

/-- C3: for a registered session whose context is live, the first `close`
succeeds, removes the record, and invokes `context.close()` exactly once
(this holds whether or not the teardown fails — the record is removed
either way); a second `close` reports `SessionNotFoundError` and performs no
further teardown, leaving the state untouched. -/
theorem C3_close_idempotent (st : RegistryState) (sid : String)
    (sd : SessionData) (fails fails2 : Bool)
    (hfind : st.find? sid = some sd)
    (hctx : sd.context.context_id ∈ st.browser_contexts) :
    (SessionService.closeSession st sid fails).1 = Except.ok () ∧
    ((SessionService.closeSession st sid fails).2).find? sid = none ∧
    ((SessionService.closeSession st sid fails).2).context_close_log
        = st.context_close_log ++ [sd.context.context_id] ∧
    (SessionService.closeSession
        (SessionService.closeSession st sid fails).2 sid fails2).1
      = Except.error (SurfError.sessionNotFound sid) ∧
    (SessionService.closeSession
        (SessionService.closeSession st sid fails).2 sid fails2).2
      = (SessionService.closeSession st sid fails).2 := by
  have hremoved : ((SessionService.closeSession st sid fails).2).find? sid
      = none := closeSessionInternal_removes st sid sd hfind fails
  have hsecond := closeSessionInternal_not_found
    (SessionService.closeSession st sid fails).2 sid hremoved fails2
  refine ⟨?_, hremoved, ?_, ?_, ?_⟩
  · unfold SessionService.closeSession SessionService.closeSessionInternal
    rw [hfind]
    simp only [if_pos hctx]
  · unfold SessionService.closeSession SessionService.closeSessionInternal
    rw [hfind]
    simp only [if_pos hctx]
  · rw [show SessionService.closeSession
        (SessionService.closeSession st sid fails).2 sid fails2
        = SessionService.closeSessionInternal
            (SessionService.closeSession st sid fails).2 sid fails2 from rfl,
      hsecond]
  · rw [show SessionService.closeSession
        (SessionService.closeSession st sid fails).2 sid fails2
        = SessionService.closeSessionInternal
            (SessionService.closeSession st sid fails).2 sid fails2 from rfl,
      hsecond]

/-- Witness for C3 on a one-session registry (teardown failing on the first
close): the record is removed, the context was closed exactly once, and the
second close reports `SessionNotFoundError`. -/
theorem C3_close_idempotent_witness :
    (({ active_sessions :=
          [("sess_ab12cd34",
            { session_id := "sess_ab12cd34"
              config := { user_agent := "UA" }
              context :=
                { context_id := 7, page_id := 8, created_at := 0,
                  last_activity := 0 } })]
        browser_contexts := [7] } : RegistryState).find? "sess_ab12cd34"
      = some
          { session_id := "sess_ab12cd34"
            config := { user_agent := "UA" }
            context :=
              { context_id := 7, page_id := 8, created_at := 0,
                last_activity := 0 } }) ∧
    (7 ∈ ([7] : List ℕ)) ∧
    ((SessionService.closeSession
        { active_sessions :=
            [("sess_ab12cd34",
              { session_id := "sess_ab12cd34"
                config := { user_agent := "UA" }
                context :=
                  { context_id := 7, page_id := 8, created_at := 0,
                    last_activity := 0 } })]
          browser_contexts := [7] }
        "sess_ab12cd34" true).2).context_close_log = [7] ∧
    (SessionService.closeSession
        (SessionService.closeSession
          { active_sessions :=
              [("sess_ab12cd34",
                { session_id := "sess_ab12cd34"
                  config := { user_agent := "UA" }
                  context :=
                    { context_id := 7, page_id := 8, created_at := 0,
                      last_activity := 0 } })]
            browser_contexts := [7] }
          "sess_ab12cd34" true).2
        "sess_ab12cd34" false).1
      = Except.error (SurfError.sessionNotFound "sess_ab12cd34") := by
  have h := C3_close_idempotent
    { active_sessions :=
        [("sess_ab12cd34",
          { session_id := "sess_ab12cd34"
            config := { user_agent := "UA" }
            context :=
              { context_id := 7, page_id := 8, created_at := 0,
                last_activity := 0 } })]
      browser_contexts := [7] }
    "sess_ab12cd34"
    { session_id := "sess_ab12cd34"
      config := { user_agent := "UA" }
      context :=
        { context_id := 7, page_id := 8, created_at := 0,
          last_activity := 0 } }
    true false (by decide) (by decide)
  exact ⟨by decide, by decide, h.2.2.1, h.2.2.2.1⟩

/-- Witness for C7: `sess_ab12cd34` matches the full pattern and is therefore
also accepted by the request schemas. -/
theorem C7_session_id_validation_witness :
    validateSessionId "sess_ab12cd34" = true ∧
      schemasValidateSessionId "sess_ab12cd34" = true := by
  refine ⟨by decide, ?_⟩
  exact (C7_session_id_validation "sess_ab12cd34").2.2 (by decide)

/-! ### C5: navigation retry and backoff -/

/-- Exhaustive evaluation of `_navigate_with_retry` with its default
`max_retries = 3`: at most three goto attempts, with backoff sleeps of
`2 ^ 0 = 1` and `2 ^ 1 = 2` seconds between consecutive attempts, and on the
third failure the last error is re-raised. -/
theorem navigateWithRetry_three (outcomes : ℕ → Except String ℕ)
    (url : String) :
    (∃ r, outcomes 0 = Except.ok r ∧
      BrowserService.navigateWithRetry outcomes url 3
        = (Except.ok (some r), [NavAct.gotoAttempt url 0])) ∨
    (∃ e0 r, outcomes 0 = Except.error e0 ∧ outcomes 1 = Except.ok r ∧
      BrowserService.navigateWithRetry outcomes url 3
        = (Except.ok (some r),
            [NavAct.gotoAttempt url 0, NavAct.backoffSleep 1,
              NavAct.gotoAttempt url 1])) ∨
    (∃ e0 e1 r, outcomes 0 = Except.error e0 ∧
      outcomes 1 = Except.error e1 ∧ outcomes 2 = Except.ok r ∧
      BrowserService.navigateWithRetry outcomes url 3
        = (Except.ok (some r),
            [NavAct.gotoAttempt url 0, NavAct.backoffSleep 1,
              NavAct.gotoAttempt url 1, NavAct.backoffSleep 2,
              NavAct.gotoAttempt url 2])) ∨
    (∃ e0 e1 e2, outcomes 0 = Except.error e0 ∧
      outcomes 1 = Except.error e1 ∧ outcomes 2 = Except.error e2 ∧
      BrowserService.navigateWithRetry outcomes url 3
        = (Except.error e2,
            [NavAct.gotoAttempt url 0, NavAct.backoffSleep 1,
              NavAct.gotoAttempt url 1, NavAct.backoffSleep 2,
              NavAct.gotoAttempt url 2])) := by
  cases h0 : outcomes 0 with
  | ok r0 =>
      exact Or.inl ⟨r0, rfl, by
        simp [BrowserService.navigateWithRetry,
          BrowserService.navigateWithRetryGo, h0]⟩
  | error e0 =>
      cases h1 : outcomes 1 with
      | ok r1 =>
          exact Or.inr (Or.inl ⟨e0, r1, rfl, rfl, by
            simp [BrowserService.navigateWithRetry,
              BrowserService.navigateWithRetryGo, h0, h1]⟩)
      | error e1 =>
          cases h2 : outcomes 2 with
          | ok r2 =>
              exact Or.inr (Or.inr (Or.inl ⟨e0, e1, r2, rfl, rfl, rfl, by
                simp [BrowserService.navigateWithRetry,
                  BrowserService.navigateWithRetryGo, h0, h1, h2]⟩))
          | error e2 =>
              exact Or.inr (Or.inr (Or.inr ⟨e0, e1, e2, rfl, rfl, rfl, by
                simp [BrowserService.navigateWithRetry,
                  BrowserService.navigateWithRetryGo, h0, h1, h2]⟩))

/-- C5 counterexample: when every attempt fails, the backoff sleeps are
exactly 1 s and 2 s — the claimed 4 s wait never occurs (there are only two
waits between the three attempts). -/
theorem C5_backoff_counterexample :
    sleepsOf (BrowserService.navigateWithRetry
        (fun _ => Except.error "net::ERR_CONNECTION_REFUSED")
        "https://example.com" 3).2 = [1, 2] ∧
    sleepsOf (BrowserService.navigateWithRetry
        (fun _ => Except.error "net::ERR_CONNECTION_REFUSED")
        "https://example.com" 3).2 ≠ [1, 2, 4] := by
  refine ⟨by decide, by decide⟩

/-- C5 (amended): navigate issues at most 3 goto attempts with exponential
backoff waits of 1 s then 2 s between consecutive attempts; when the retry
budget is exhausted the underlying failure `e` of the last attempt is
wrapped and raised as `BrowserOperationError("navigate", e)`. -/
theorem C5_navigate_retry (outcomes : ℕ → Except String ℕ) (url : String)
    (ra sm mm : Bool) :
    gotoCount
        (BrowserService.navigateToUrl ra sm mm true url outcomes).2 ≤ 3 ∧
    (sleepsOf (BrowserService.navigateToUrl ra sm mm true url outcomes).2 = []
      ∨ sleepsOf
          (BrowserService.navigateToUrl ra sm mm true url outcomes).2 = [1]
      ∨ sleepsOf
          (BrowserService.navigateToUrl ra sm mm true url outcomes).2
          = [1, 2]) ∧
    (∀ e0 e1 e2 : String,
      outcomes 0 = Except.error e0 → outcomes 1 = Except.error e1 →
      outcomes 2 = Except.error e2 →
      (BrowserService.navigateToUrl ra sm mm true url outcomes).1
          = Except.error (SurfError.browserOperation "navigate" e2) ∧
      sleepsOf (BrowserService.navigateToUrl ra sm mm true url outcomes).2
          = [1, 2]) := by
  rcases navigateWithRetry_three outcomes url with
    ⟨r0, h0, hr⟩ | ⟨e0, r1, h0, h1, hr⟩ | ⟨e0, e1, r2, h0, h1, h2, hr⟩ |
    ⟨e0, e1, e2, h0, h1, h2, hr⟩ <;>
    refine ⟨?_, ?_, fun f0 f1 f2 g0 g1 g2 => ?_⟩ <;>
    cases ra <;> cases sm <;> cases mm <;>
    simp_all [BrowserService.navigateToUrl, gotoCount, sleepsOf]

/-- Witness for C5: with every attempt failing with `boom`, navigate returns
`BrowserOperationError("navigate", "boom")` after sleeps of 1 s and 2 s. -/
theorem C5_navigate_retry_witness :
    (BrowserService.navigateToUrl true true true true "https://example.com"
        (fun _ => Except.error "boom")).1
      = Except.error (SurfError.browserOperation "navigate" "boom") ∧
    sleepsOf (BrowserService.navigateToUrl true true true true
        "https://example.com" (fun _ => Except.error "boom")).2 = [1, 2] :=
  (C5_navigate_retry (fun _ => Except.error "boom") "https://example.com"
    true true true).2.2 "boom" "boom" "boom" rfl rfl rfl

/-! ### C8: no per-session lock in the operation executors -/

/-- No lock acquisition occurs anywhere in the retry loop's trace. -/
theorem navRetryGo_no_lock (outcomes : ℕ → Except String ℕ) (url : String) :
    ∀ (fuel attempt : ℕ),
      ∀ a ∈ (BrowserService.navigateWithRetryGo outcomes url attempt fuel).2,
        a.isLock = false := by
  intro fuel
  induction fuel with
  | zero =>
      intro attempt a ha
      simp [BrowserService.navigateWithRetryGo] at ha
  | succ n ih =>
      intro attempt a ha
      have heq : BrowserService.navigateWithRetryGo outcomes url attempt
          (n + 1)
          = match outcomes attempt with
            | Except.ok r =>
                (Except.ok (some r), [NavAct.gotoAttempt url attempt])
            | Except.error e =>
                if n = 0 then
                  (Except.error e, [NavAct.gotoAttempt url attempt])
                else
                  ((BrowserService.navigateWithRetryGo outcomes url
                      (attempt + 1) n).1,
                    NavAct.gotoAttempt url attempt ::
                      NavAct.backoffSleep (2 ^ attempt) ::
                        (BrowserService.navigateWithRetryGo outcomes url
                          (attempt + 1) n).2) := rfl
      rw [heq] at ha
      cases ho : outcomes attempt with
      | ok r =>
          rw [ho] at ha
          simp at ha
          simp [ha, NavAct.isLock]
      | error e =>
          rw [ho] at ha
          by_cases hn : n = 0
          · simp only [if_pos hn] at ha
            simp at ha
            simp [ha, NavAct.isLock]
          · simp only [if_neg hn] at ha
            simp only [List.mem_cons] at ha
            rcases ha with rfl | rfl | ha
            · rfl
            · rfl
            · exact ih (attempt + 1) a ha

/-- C8 (amended): `navigate_to_url` performs no lock acquisition at all —
`SessionData` carries no lock and the executor never takes one — so
browser-level operations within one session are not serialised by the
service (the registry-wide `session_lock` only guards create/close/
shutdown). -/
theorem C8_navigate_takes_no_lock (ra sm mm init : Bool) (url : String)
    (outcomes : ℕ → Except String ℕ) (a : NavAct)
    (ha : a ∈ (BrowserService.navigateToUrl ra sm mm init url outcomes).2) :
    a.isLock = false := by
  cases init with
  | false => simp [BrowserService.navigateToUrl] at ha
  | true =>
      rcases hres : BrowserService.navigateWithRetry outcomes url 3 with
        ⟨res, tr⟩
      have h2 : (BrowserService.navigateWithRetry outcomes url 3).2 = tr := by
        rw [hres]
      have htr : ∀ x ∈ tr, NavAct.isLock x = false := by
        intro x hx
        exact navRetryGo_no_lock outcomes url 3 0 x (h2.symm ▸ hx)
      cases res <;>
        cases ra <;> cases sm <;> cases mm <;>
        simp [BrowserService.navigateToUrl, hres] at ha <;>
        repeat'
          first
            | exact htr a ha
            | (subst ha; rfl)
            | (rcases ha with ha | ha)

/-- C8 counterexample: the claim that every operation executor acquires the
session's own lock fails — a successful navigate's effect trace contains no
session-lock acquisition (for any session id). -/
theorem C8_no_session_lock_counterexample :
    NavAct.acquireSessionLock "sess_ab12cd34" ∉
      (BrowserService.navigateToUrl true true true true
        "https://example.com" (fun _ => Except.ok 200)).2 := by
  decide

/-- Witness for C8 on a concrete failing navigate: the monitor-update action
is in the trace and is not a lock. -/
theorem C8_navigate_takes_no_lock_witness :
    NavAct.updateMonitor false ∈
      (BrowserService.navigateToUrl true true true true
        "https://example.com" (fun _ => Except.error "boom")).2 ∧
    (NavAct.updateMonitor false).isLock = false := by
  refine ⟨by decide, ?_⟩
  exact C8_navigate_takes_no_lock true true true true "https://example.com"
    (fun _ => Except.error "boom") (NavAct.updateMonitor false) (by decide)

/-! ### C10: site-memory access stats only accumulate for existing rows -/

/-- C10: `update_access_stats` on an origin with no stored row returns
`False` and leaves the store untouched (no row is created); on an origin
with a row it returns `True` and persists the bumped access count, the
`last_accessed` stamp and the α = 0.1 EMA of the success flag. -/
theorem C10_update_access_stats (store : SiteStore) (origin : String)
    (success : Bool) (now : ℚ)
    (performance_data : Option (List (String × ℚ))) :
    (store.get origin = none →
      SiteStore.updateAccessStats store origin success now performance_data
        = (false, store)) ∧
    (∀ m : SiteMemory, store.get origin = some m →
      (SiteStore.updateAccessStats store origin success now none).1
          = true ∧
      ((SiteStore.updateAccessStats store origin success now none).2).get
          origin
        = some
            { m with
              access_count := m.access_count + 1
              last_accessed := now
              success_rate :=
                (1 - 1/10) * m.success_rate +
                  (1/10) * (if success then 1 else 0) }) := by
  constructor
  · intro h
    unfold SiteStore.updateAccessStats
    rw [h]
  · intro m hm
    have hm0 := hm
    unfold SiteStore.get at hm0
    cases hl : List.lookup origin store with
    | none => rw [hl] at hm0; exact absurd hm0 (by simp)
    | some m0 =>
        rw [hl] at hm0
        have hm2 : ({ m0 with site_url := origin } : SiteMemory) = m :=
          Option.some.inj hm0
        subst hm2
        constructor
        · simp [SiteStore.updateAccessStats, SiteStore.get, SiteStore.save,
            hl]
        · simp [SiteStore.updateAccessStats, SiteStore.get, SiteStore.save,
            hl, dictInsert_lookup_self]

/-- Witness for C10: on the empty store, `update_access_stats` returns
`False` and the store stays empty. -/
theorem C10_update_access_stats_witness :
    SiteStore.get (show SiteStore from []) "https://example.com" = none ∧
    SiteStore.updateAccessStats (show SiteStore from [])
        "https://example.com" true 0 none
      = (false, (show SiteStore from [])) :=
  ⟨rfl,
    (C10_update_access_stats (show SiteStore from []) "https://example.com"
      true 0 none).1 rfl⟩

/-- Every character emitted by the whitespace collapser is a space or a
non-whitespace input character. -/
theorem collapseWsGo_mem {c : Char} :
    ∀ {l : List Char} {b : Bool}, c ∈ collapseWsGo b l →
      c = ' ' ∨ (isPyWs c = false ∧ c ∈ l) := by
  intro l
  induction l with
  | nil => intro b h; simp [collapseWsGo] at h
  | cons a l ih =>
      intro b h
      by_cases hws : isPyWs a = true
      · cases b with
        | true =>
            simp only [collapseWsGo, if_pos hws, if_pos rfl] at h
            rcases ih h with h' | ⟨h1, h2⟩
            · exact Or.inl h'
            · exact Or.inr ⟨h1, List.mem_cons_of_mem a h2⟩
        | false =>
            simp [collapseWsGo, hws] at h
            rcases h with h' | h'
            · exact Or.inl h'
            · rcases ih h' with h'' | ⟨h1, h2⟩
              · exact Or.inl h''
              · exact Or.inr ⟨h1, List.mem_cons_of_mem a h2⟩
      · simp only [collapseWsGo, if_neg hws] at h
        rcases List.mem_cons.mp h with h' | h'
        · subst h'
          exact Or.inr ⟨by simpa using hws, List.mem_cons_self _ _⟩
        · rcases ih h' with h'' | ⟨h1, h2⟩
          · exact Or.inl h''
          · exact Or.inr ⟨h1, List.mem_cons_of_mem a h2⟩

/-- In collapsing mode the output never starts with whitespace. -/
theorem collapseWsGo_true_headIsWs :
    ∀ l : List Char, headIsWs (collapseWsGo true l) = false := by
  intro l
  induction l with
  | nil => rfl
  | cons a l ih =>
      by_cases hws : isPyWs a = true
      · simpa [collapseWsGo, hws] using ih
      · simp [collapseWsGo, hws, headIsWs]

/-- If the head is not whitespace, any `head?` element is non-whitespace. -/
theorem headIsWs_head? {l : List Char} (h : headIsWs l = false) :
    ∀ y ∈ l.head?, isPyWs y = false := by
  cases l with
  | nil => intro y hy; simp at hy
  | cons c cs =>
      intro y hy
      simp only [List.head?_cons, Option.mem_def, Option.some.injEq] at hy
      subst hy
      exact h

/-- The collapser's output has no two adjacent whitespace characters. -/
theorem collapseWsGo_noAdjWs :
    ∀ (l : List Char) (b : Bool), NoAdjWs (collapseWsGo b l) := by
  intro l
  induction l with
  | nil => intro b; simp [collapseWsGo, NoAdjWs]
  | cons a l ih =>
      intro b
      by_cases hws : isPyWs a = true
      · cases b with
        | true => simpa [collapseWsGo, hws] using ih true
        | false =>
            have hshape : collapseWsGo false (a :: l) = ' ' :: collapseWsGo true l := by
              simp [collapseWsGo, hws]
            rw [hshape]
            refine List.chain'_cons'.mpr ⟨?_, ih true⟩
            intro y hy
            have := headIsWs_head? (collapseWsGo_true_headIsWs l) y hy
            simp [this]
      · simp only [collapseWsGo, if_neg hws]
        refine List.chain'_cons'.mpr ⟨?_, ih false⟩
        intro y hy
        simp [hws]
/-- On a list whose whitespace is all plain spaces with no two adjacent,
the whitespace collapser is the identity (the flag only matters when the
list starts with whitespace). -/
theorem collapseWsGo_id :
    ∀ {l : List Char} {b : Bool}, WsSp l → NoAdjWs l →
      (b = true → headIsWs l = false) → collapseWsGo b l = l := by
  intro l
  induction l with
  | nil => intro b _ _ _; rfl
  | cons a l ih =>
      intro b hw hc hb
      by_cases hws : isPyWs a = true
      · have ha : a = ' ' := hw a (List.mem_cons_self _ _) hws
        have hbf : b = false := by
          cases b with
          | false => rfl
          | true =>
              have := hb rfl
              simp [headIsWs, hws] at this
        subst hbf
        have hshape : collapseWsGo false (a :: l) = ' ' :: collapseWsGo true l := by
          simp [collapseWsGo, hws]
        rw [hshape, ha]
        have hrest := (List.chain'_cons'.mp hc)
        have hhead : headIsWs l = false := by
          cases l with
          | nil => rfl
          | cons d ds =>
              have := hrest.1 d (by simp)
              simp only [headIsWs]
              by_cases hd : isPyWs d = true
              · exact absurd ⟨hws, hd⟩ this
              · simpa using hd
        have : collapseWsGo true l = l :=
          ih (fun c hcl => hw c (List.mem_cons_of_mem a hcl)) hrest.2
            (fun _ => hhead)
        rw [this]
  
      · have hshape : collapseWsGo b (a :: l) = a :: collapseWsGo false l := by
          cases b <;> simp [collapseWsGo, hws]
        rw [hshape]
        have : collapseWsGo false l = l :=
          ih (fun c hcl => hw c (List.mem_cons_of_mem a hcl))
            (List.chain'_cons'.mp hc).2 (by intro h; exact absurd h (by simp))
        rw [this]

theorem collapseWs_id {l : List Char} (hw : WsSp l) (hc : NoAdjWs l) :
    collapseWs l = l :=
  collapseWsGo_id hw hc (by intro h; exact absurd h (by simp))

/-- `dropWhile isPyWs` never leaves whitespace at the head. -/
theorem headIsWs_dropWhile :
    ∀ l : List Char, headIsWs (l.dropWhile isPyWs) = false := by
  intro l
  induction l with
  | nil => rfl
  | cons a l ih =>
      by_cases hws : isPyWs a = true
      · simpa [List.dropWhile_cons, hws] using ih
      · simp [List.dropWhile_cons, hws, headIsWs]

/-- `dropWhile isPyWs` is the identity when the head is not whitespace. -/
theorem dropWhile_id_of_headIsWs {l : List Char} (h : headIsWs l = false) :
    l.dropWhile isPyWs = l := by
  cases l with
  | nil => rfl
  | cons a l => simp [List.dropWhile_cons, headIsWs] at h ⊢; simp [h]

theorem headIsWs_append_left {l m : List Char} (h : l ≠ []) :
    headIsWs (l ++ m) = headIsWs l := by
  cases l with
  | nil => exact absurd rfl h
  | cons a l => rfl

/-- If a list has no trailing whitespace, dropping leading whitespace
preserves that. -/
theorem headIsWs_reverse_dropWhile :
    ∀ {l : List Char}, headIsWs l.reverse = false →
      headIsWs (l.dropWhile isPyWs).reverse = false := by
  intro l
  induction l with
  | nil => intro _; rfl
  | cons a l ih =>
      intro h
      by_cases hws : isPyWs a = true
      · rw [List.dropWhile_cons, if_pos hws]
        apply ih
        cases hl : l with
        | nil =>
            subst hl
            simp [headIsWs, hws] at h
        | cons d ds =>
            rw [List.reverse_cons, headIsWs_append_left (by simp [hl])] at h
            rw [hl] at h
            exact h
      · rw [List.dropWhile_cons, if_neg hws]
        exact h

/-- Python `strip` is idempotent. -/
theorem pyStrip_idem (l : List Char) : pyStrip (pyStrip l) = pyStrip l := by
  have f1 : headIsWs (pyStrip l) = false := by
    have h0 : headIsWs ((l.dropWhile isPyWs).reverse.reverse) = false := by
      rw [List.reverse_reverse]; exact headIsWs_dropWhile l
    exact headIsWs_reverse_dropWhile h0
  have f2 : headIsWs (pyStrip l).reverse = false := by
    unfold pyStrip
    rw [List.reverse_reverse]
    exact headIsWs_dropWhile _
  show ((((pyStrip l).dropWhile isPyWs).reverse).dropWhile isPyWs).reverse = pyStrip l
  rw [dropWhile_id_of_headIsWs f1, dropWhile_id_of_headIsWs f2,
    List.reverse_reverse]
theorem mem_dropWhile_isPyWs {c : Char} {l : List Char}
    (h : c ∈ l.dropWhile isPyWs) : c ∈ l :=
  (List.dropWhile_sublist isPyWs).mem h

theorem mem_pyStrip {c : Char} {l : List Char} (h : c ∈ pyStrip l) : c ∈ l := by
  unfold pyStrip at h
  rw [List.mem_reverse] at h
  have h1 := mem_dropWhile_isPyWs h
  rw [List.mem_reverse] at h1
  exact mem_dropWhile_isPyWs h1

theorem WsSp_pyStrip {l : List Char} (h : WsSp l) : WsSp (pyStrip l) :=
  fun c hc => h c (mem_pyStrip hc)

theorem NoNl_pyStrip {l : List Char} (h : NoNl l) : NoNl (pyStrip l) :=
  fun hc => h (mem_pyStrip hc)

theorem NoAdjWs_dropWhile {l : List Char} (h : NoAdjWs l) :
    NoAdjWs (l.dropWhile isPyWs) := by
  induction l with
  | nil => exact h
  | cons a l ih =>
      by_cases hws : isPyWs a = true
      · rw [List.dropWhile_cons, if_pos hws]
        exact ih (List.chain'_cons'.mp h).2
      · rw [List.dropWhile_cons, if_neg hws]
        exact h

theorem NoAdjWs_reverse {l : List Char} (h : NoAdjWs l) :
    NoAdjWs l.reverse := by
  unfold NoAdjWs at h ⊢
  rw [List.chain'_reverse]
  exact List.Chain'.imp (fun a b hab hba => hab ⟨hba.2, hba.1⟩) h

theorem NoAdjWs_pyStrip {l : List Char} (h : NoAdjWs l) :
    NoAdjWs (pyStrip l) :=
  NoAdjWs_reverse (NoAdjWs_dropWhile (NoAdjWs_reverse (NoAdjWs_dropWhile h)))

theorem dotRun3_shape {cs : List Char} (h : dotRun3 cs = true) :
    ∃ t, cs = '.' :: '.' :: '.' :: t := by
  match cs with
  | [] => simp [dotRun3] at h
  | [a] => simp [dotRun3] at h
  | [a, b] => simp [dotRun3] at h
  | a :: b :: c :: t =>
      simp only [dotRun3, Bool.and_eq_true, beq_iff_eq] at h
      obtain ⟨⟨ha, hb⟩, hc⟩ := h
      subst ha; subst hb; subst hc
      exact ⟨t, rfl⟩

theorem no4Dots_false_of_decomp :
    ∀ (s t : List Char), no4Dots (s ++ '.' :: '.' :: '.' :: '.' :: t) = false := by
  intro s
  induction s with
  | nil => intro t; simp [no4Dots, dotRun3]
  | cons a s ih =>
      intro t
      simp [no4Dots, ih t]

theorem decomp_of_no4Dots_false :
    ∀ {l : List Char}, no4Dots l = false →
      ∃ s t, l = s ++ '.' :: '.' :: '.' :: '.' :: t := by
  intro l
  induction l with
  | nil => intro h; simp [no4Dots] at h
  | cons a l ih =>
      intro h
      simp only [no4Dots, Bool.and_eq_false_iff, Bool.not_eq_false',
        Bool.and_eq_true, beq_iff_eq] at h
      rcases h with ⟨ha, hd⟩ | h
      · obtain ⟨t, ht⟩ := dotRun3_shape hd
        subst ha
        exact ⟨[], t, by rw [ht]; rfl⟩
      · obtain ⟨s, t, hst⟩ := ih h
        exact ⟨a :: s, t, by rw [hst]; rfl⟩

theorem no4Dots_reverse {l : List Char} (h : no4Dots l = true) :
    no4Dots l.reverse = true := by
  by_contra hne
  have hf : no4Dots l.reverse = false := by
    cases hx : no4Dots l.reverse with
    | true => exact absurd hx hne
    | false => rfl
  obtain ⟨s, t, hst⟩ := decomp_of_no4Dots_false hf
  have : l = t.reverse ++ '.' :: '.' :: '.' :: '.' :: s.reverse := by
    have := congrArg List.reverse hst
    rw [List.reverse_reverse] at this
    rw [this]
    simp [List.reverse_append]
  rw [this, no4Dots_false_of_decomp] at h
  exact absurd h (by simp)

theorem no4Dots_dropWhile {l : List Char} (h : no4Dots l = true) :
    no4Dots (l.dropWhile isPyWs) = true := by
  induction l with
  | nil => exact h
  | cons a l ih =>
      have hl : no4Dots l = true := by
        simp only [no4Dots, Bool.and_eq_true] at h
        exact h.2
      by_cases hws : isPyWs a = true
      · rw [List.dropWhile_cons, if_pos hws]
        exact ih hl
      · rw [List.dropWhile_cons, if_neg hws]
        exact h

theorem No4_pyStrip {l : List Char} (h : No4 l) : No4 (pyStrip l) := by
  unfold No4 at h ⊢
  exact no4Dots_reverse (no4Dots_dropWhile (no4Dots_reverse (no4Dots_dropWhile h)))
/-- Every character emitted by the dot squeezer is a dot or an input
character. -/
theorem squeezeDotsGo_mem {c : Char} :
    ∀ {l : List Char} {run : ℕ}, c ∈ squeezeDotsGo run l →
      c = '.' ∨ c ∈ l := by
  intro l
  induction l with
  | nil =>
      intro run h
      simp only [squeezeDotsGo, dotsOut] at h
      exact Or.inl (List.eq_of_mem_replicate h)
  | cons a l ih =>
      intro run h
      by_cases ha : (a == '.') = true
      · rw [squeezeDotsGo, if_pos ha] at h
        rcases ih h with h' | h'
        · exact Or.inl h'
        · exact Or.inr (List.mem_cons_of_mem a h')
      · rw [squeezeDotsGo, if_neg ha] at h
        rcases List.mem_append.mp h with h' | h'
        · exact Or.inl (List.eq_of_mem_replicate h')
        · rcases List.mem_cons.mp h' with h'' | h''
          · subst h''; exact Or.inr (List.mem_cons_self _ _)
          · rcases ih h'' with h3 | h3
            · exact Or.inl h3
            · exact Or.inr (List.mem_cons_of_mem a h3)

theorem WsSp_squeezeDots {l : List Char} (h : WsSp l) : WsSp (squeezeDots l) := by
  intro c hc hws
  rcases squeezeDotsGo_mem hc with h' | h'
  · subst h'; simp [isPyWs] at hws
  · exact h c h' hws

theorem NoNl_squeezeDots {l : List Char} (h : NoNl l) : NoNl (squeezeDots l) := by
  intro hc
  rcases squeezeDotsGo_mem hc with h' | h'
  · simp at h'
  · exact h h'

/-- With a pending dot run the squeezer's output starts with a dot. -/
theorem squeezeDotsGo_pos_head :
    ∀ (l : List Char) (run : ℕ), 1 ≤ run →
      (squeezeDotsGo run l).head? = some '.' := by
  intro l
  induction l with
  | nil =>
      intro run hrun
      have : 1 ≤ min run 3 := le_min hrun (by omega)
      rw [squeezeDotsGo, dotsOut]
      cases hm : min run 3 with
      | zero => omega
      | succ k => simp [List.replicate_succ]
  | cons a l ih =>
      intro run hrun
      by_cases ha : (a == '.') = true
      · rw [squeezeDotsGo, if_pos ha]
        exact ih (run + 1) (by omega)
      · rw [squeezeDotsGo, if_neg ha]
        have : 1 ≤ min run 3 := le_min hrun (by omega)
        rw [dotsOut]
        cases hm : min run 3 with
        | zero => omega
        | succ k => simp [List.replicate_succ]

/-- With no pending run, a whitespace head of the squeezer's output comes
from a whitespace head of the input. -/
theorem squeezeDotsGo_zero_head {l : List Char} {y : Char}
    (hy : (squeezeDotsGo 0 l).head? = some y) (hws : isPyWs y = true) :
    ∃ z, l.head? = some z ∧ isPyWs z = true := by
  cases l with
  | nil => simp [squeezeDotsGo, dotsOut] at hy
  | cons a l =>
      by_cases ha : (a == '.') = true
      · rw [squeezeDotsGo, if_pos ha] at hy
        rw [squeezeDotsGo_pos_head l 1 (by omega)] at hy
        have : y = '.' := by simpa using hy.symm
        subst this
        simp [isPyWs] at hws
      · rw [squeezeDotsGo, if_neg ha] at hy
        simp only [dotsOut, Nat.min_self, List.replicate, List.nil_append,
          List.head?_cons, Option.some.injEq] at hy
        subst hy
        exact ⟨a, by simp, hws⟩

theorem NoAdjWs_replicate_dot (k : ℕ) : NoAdjWs (List.replicate k '.') := by
  induction k with
  | zero => simp [NoAdjWs]
  | succ n ih =>
      rw [List.replicate_succ]
      refine List.chain'_cons'.mpr ⟨?_, ih⟩
      intro y hy
      simp [isPyWs]

theorem mem_getLast? {α : Type} :
    ∀ {l : List α} {x : α}, l.getLast? = some x → x ∈ l := by
  intro l
  induction l with
  | nil => intro x h; simp at h
  | cons a l ih =>
      intro x h
      cases hl : l with
      | nil => subst hl; simp at h; simp [h]
      | cons b m =>
          rw [hl] at h ih
          rw [List.getLast?_cons_cons] at h
          exact List.mem_cons_of_mem a (ih h)

/-- The dot squeezer preserves the no-adjacent-whitespace property. -/
theorem NoAdjWs_squeezeDotsGo :
    ∀ {l : List Char} (run : ℕ), NoAdjWs l → NoAdjWs (squeezeDotsGo run l) := by
  intro l
  induction l with
  | nil =>
      intro run _
      rw [squeezeDotsGo, dotsOut]
      exact NoAdjWs_replicate_dot _
  | cons a l ih =>
      intro run h
      by_cases ha : (a == '.') = true
      · rw [squeezeDotsGo, if_pos ha]
        exact ih (run + 1) (List.chain'_cons'.mp h).2
      · rw [squeezeDotsGo, if_neg ha]
        unfold NoAdjWs
        rw [List.chain'_append]
        refine ⟨NoAdjWs_replicate_dot _, ?_, ?_⟩
        · refine List.chain'_cons'.mpr ⟨?_, ih 0 (List.chain'_cons'.mp h).2⟩
          intro y hy hcon
          obtain ⟨z, hz, hzws⟩ := squeezeDotsGo_zero_head hy hcon.2
          exact (List.chain'_cons'.mp h).1 z hz ⟨hcon.1, hzws⟩
        · intro x hx y hy
          have : x = '.' := List.eq_of_mem_replicate (mem_getLast? hx)
          subst this
          intro hcon
          simp [isPyWs] at hcon
theorem dotRun3_of_thd {a b c : Char} {t : List Char}
    (h : (c == '.') = false) : dotRun3 (a :: b :: c :: t) = false := by
  simp [dotRun3, h]

theorem dotRun3_of_snd {a b : Char} {t : List Char} (h : (b == '.') = false) :
    dotRun3 (a :: b :: t) = false := by
  cases t <;> simp [dotRun3, h]

theorem dotRun3_of_fst {a : Char} {t : List Char} (h : (a == '.') = false) :
    dotRun3 (a :: t) = false := by
  cases t with
  | nil => simp [dotRun3]
  | cons b t' => cases t' <;> simp [dotRun3, h]

theorem no4Dots_cons_of_ne {c : Char} {rest : List Char}
    (hc : (c == '.') = false) : no4Dots (c :: rest) = no4Dots rest := by
  simp [no4Dots, hc]

theorem no4Dots_replicate_le3 {k : ℕ} (hk : k ≤ 3) :
    no4Dots (List.replicate k '.') = true := by
  interval_cases k <;> decide

theorem no4Dots_dots_prepend {k : ℕ} {c : Char} {rest : List Char}
    (hk : k ≤ 3) (hc : (c == '.') = false) (h : no4Dots (c :: rest) = true) :
    no4Dots (List.replicate k '.' ++ c :: rest) = true := by
  have hc' : ¬ c = '.' := by simpa using hc
  have hrest : no4Dots rest = true := by
    simp [no4Dots, hc] at h
    exact h
  interval_cases k
  · simpa using h
  · simp [List.replicate, no4Dots, dotRun3_of_fst hc, hc', hrest]
  · simp [List.replicate, no4Dots, dotRun3_of_fst hc, dotRun3_of_snd hc,
      hc', hrest]
  · simp [List.replicate, no4Dots, dotRun3_of_thd hc, dotRun3_of_fst hc,
      dotRun3_of_snd hc, hc', hrest]

/-- The dot squeezer's output never holds four consecutive dots. -/
theorem no4Dots_squeezeDotsGo :
    ∀ (l : List Char) (run : ℕ), no4Dots (squeezeDotsGo run l) = true := by
  intro l
  induction l with
  | nil =>
      intro run
      rw [squeezeDotsGo, dotsOut]
      exact no4Dots_replicate_le3 (by omega)
  | cons a l ih =>
      intro run
      by_cases ha : (a == '.') = true
      · rw [squeezeDotsGo, if_pos ha]
        exact ih (run + 1)
      · have ha' : (a == '.') = false := by simpa using ha
        rw [squeezeDotsGo, if_neg ha, dotsOut]
        exact no4Dots_dots_prepend (by omega) ha'
          (by rw [no4Dots_cons_of_ne ha']; exact ih 0)

theorem no4Dots_of_append {x l : List Char}
    (h : no4Dots (x ++ l) = true) : no4Dots l = true := by
  induction x with
  | nil => exact h
  | cons a x ih =>
      apply ih
      rw [List.cons_append] at h
      simp only [no4Dots, Bool.and_eq_true] at h
      exact h.2

theorem no4Dots_four_head :
    ∀ cs : List Char, no4Dots ('.' :: '.' :: '.' :: '.' :: cs) = false := by
  intro cs
  simp [no4Dots, dotRun3]

/-- The dot squeezer is the identity on lists with no four consecutive
dots (with `run` pending dots already seen). -/
theorem squeezeDotsGo_id :
    ∀ {l : List Char} (run : ℕ), run ≤ 3 →
      no4Dots (List.replicate run '.' ++ l) = true →
      squeezeDotsGo run l = List.replicate run '.' ++ l := by
  intro l
  induction l with
  | nil =>
      intro run hrun _
      rw [squeezeDotsGo, dotsOut, Nat.min_eq_left hrun, List.append_nil]
  | cons a l ih =>
      intro run hrun h4
      by_cases ha : (a == '.') = true
      · have ha' : a = '.' := by simpa using ha
        subst ha'
        have hsh : List.replicate run '.' ++ '.' :: l =
            List.replicate (run + 1) '.' ++ l := by
          rw [List.replicate_succ' (n := run)]
          simp
        have hrun' : run ≤ 2 := by
          rcases Nat.lt_or_ge run 3 with h3 | h3
          · omega
          · exfalso
            have h33 : run = 3 := by omega
            subst h33
            rw [show (List.replicate 3 '.' ++ '.' :: l) =
              ('.' :: '.' :: '.' :: '.' :: l) by simp [List.replicate],
              no4Dots_four_head] at h4
            exact absurd h4 (by simp)
        rw [squeezeDotsGo, if_pos (by simp), hsh]
        exact ih (run + 1) (by omega) (by rw [← hsh]; exact h4)
      · have ha' : (a == '.') = false := by simpa using ha
        have hrest : no4Dots (a :: l) = true :=
          no4Dots_of_append (x := List.replicate run '.') h4
        have hl : no4Dots l = true := by
          rw [no4Dots_cons_of_ne ha'] at hrest
          exact hrest
        rw [squeezeDotsGo, if_neg ha, dotsOut, Nat.min_eq_left hrun]
        have hid : squeezeDotsGo 0 l = l := by
          have := ih 0 (by omega) (by simpa using hl)
          simpa using this
        rw [hid]

theorem squeezeDots_id {l : List Char} (h : No4 l) : squeezeDots l = l := by
  unfold squeezeDots
  have h0 : no4Dots (List.replicate 0 '.' ++ l) = true := by simpa using h
  have := squeezeDotsGo_id 0 (by omega) h0
  simpa using this
theorem splitOnNl_of_noNl :
    ∀ {l : List Char}, NoNl l → splitOnNl l = [l] := by
  intro l
  induction l with
  | nil => intro _; rfl
  | cons a l ih =>
      intro h
      have ha : ¬ a = '\n' := by
        intro hcon
        exact h (by rw [hcon]; exact List.mem_cons_self _ _)
      have hl : NoNl l := fun hc => h (List.mem_cons_of_mem a hc)
      rw [splitOnNl, if_neg (by simpa using ha), ih hl]

theorem cleanLines_of_noNl {l : List Char} (h : NoNl l) :
    cleanLines l = pyStrip l := by
  unfold cleanLines
  rw [splitOnNl_of_noNl h]
  by_cases he : (pyStrip l).isEmpty = true
  · have hl : pyStrip l = [] := by simpa using he
    rw [List.map_cons, List.map_nil, hl]
    show pyStrip (joinNl (List.filter (fun x => !x.isEmpty) [[]])) = []
    rw [List.filter_cons, if_neg (by simp), List.filter_nil]
    rfl
  · simp only [List.map_cons, List.map_nil, List.filter_cons,
      Bool.not_eq_eq_eq_not, Bool.not_true]
    rw [if_pos (by simpa using he)]
    simp [joinNl, pyStrip_idem]

/-- The composed first four stages of the cleaner, for readability. -/
theorem cleanContentBasic_eq {t : List Char} :
    cleanContentBasic t = if t.isEmpty then [] else
      cleanLines (dropWsBeforePunct (squeezeDots
        (stripFooterTokens (stripNavTokens (collapseWs t))))) := rfl
theorem WsSp_collapseWs (t : List Char) : WsSp (collapseWs t) := by
  intro c hc hws
  rcases collapseWsGo_mem hc with h' | ⟨h1, _⟩
  · exact h'
  · rw [h1] at hws; exact absurd hws (by simp)

theorem NoNl_collapseWs (t : List Char) : NoNl (collapseWs t) := by
  intro hc
  rcases collapseWsGo_mem hc with h' | ⟨h1, _⟩
  · exact absurd h' (by decide)
  · exact absurd h1 (by decide)

/-- **C9 counterexample.** `clean_content_basic` is not idempotent: on
`"a Home b"` the first pass deletes the navigation token `Home` leaving two
adjacent spaces (`"a  b"`), which a second pass collapses to `"a b"`. -/
theorem C9_idempotence_counterexample :
    cleanContentBasic (cleanContentBasic "a Home b".data) ≠
      cleanContentBasic "a Home b".data := by decide

/-- **C9 (amended).** `clean_content_basic` is idempotent on inputs where
the boilerplate-stripping and punctuation-spacing stages act trivially —
both on the whitespace-collapsed input and on the first pass's output.
(The structural stages need no such hypotheses: whitespace collapsing, dot
squeezing, line cleaning and stripping are proved idempotent outright.) -/
theorem C9_normalize_idempotent (t : List Char)
    (h1 : stripFooterTokens (stripNavTokens (collapseWs t)) = collapseWs t)
    (h2 : dropWsBeforePunct (squeezeDots (collapseWs t)) =
      squeezeDots (collapseWs t))
    (h3 : stripFooterTokens (stripNavTokens
        (pyStrip (squeezeDots (collapseWs t)))) =
      pyStrip (squeezeDots (collapseWs t)))
    (h4 : dropWsBeforePunct (pyStrip (squeezeDots (collapseWs t))) =
      pyStrip (squeezeDots (collapseWs t))) :
    cleanContentBasic (cleanContentBasic t) = cleanContentBasic t := by
  by_cases ht : t.isEmpty = true
  · simp [cleanContentBasic, ht]
  · have hw : WsSp (collapseWs t) := WsSp_collapseWs t
    have hnl : NoNl (collapseWs t) := NoNl_collapseWs t
    have hadj : NoAdjWs (collapseWs t) := collapseWsGo_noAdjWs t false
    have hXw : WsSp (squeezeDots (collapseWs t)) := WsSp_squeezeDots hw
    have hXnl : NoNl (squeezeDots (collapseWs t)) := NoNl_squeezeDots hnl
    have hXadj : NoAdjWs (squeezeDots (collapseWs t)) :=
      NoAdjWs_squeezeDotsGo 0 hadj
    have hX4 : No4 (squeezeDots (collapseWs t)) :=
      no4Dots_squeezeDotsGo (collapseWs t) 0
    have hyw : WsSp (pyStrip (squeezeDots (collapseWs t))) :=
      WsSp_pyStrip hXw
    have hynl : NoNl (pyStrip (squeezeDots (collapseWs t))) :=
      NoNl_pyStrip hXnl
    have hyadj : NoAdjWs (pyStrip (squeezeDots (collapseWs t))) :=
      NoAdjWs_pyStrip hXadj
    have hy4 : No4 (pyStrip (squeezeDots (collapseWs t))) :=
      No4_pyStrip hX4
    have hclean : cleanContentBasic t =
        pyStrip (squeezeDots (collapseWs t)) := by
      unfold cleanContentBasic
      rw [if_neg ht, h1, h2, cleanLines_of_noNl hXnl]
    rw [hclean]
    by_cases hye : (pyStrip (squeezeDots (collapseWs t))).isEmpty = true
    · have : pyStrip (squeezeDots (collapseWs t)) = [] := by simpa using hye
      rw [this]
      rfl
    · unfold cleanContentBasic
      rw [if_neg hye, collapseWs_id hyw hyadj, h3, squeezeDots_id hy4, h4,
        cleanLines_of_noNl hynl]
      exact pyStrip_idem _

theorem C9_normalize_idempotent_witness :
    (stripFooterTokens (stripNavTokens (collapseWs "ab".data)) =
      collapseWs "ab".data) ∧
    (dropWsBeforePunct (squeezeDots (collapseWs "ab".data)) =
      squeezeDots (collapseWs "ab".data)) ∧
    (stripFooterTokens (stripNavTokens
        (pyStrip (squeezeDots (collapseWs "ab".data)))) =
      pyStrip (squeezeDots (collapseWs "ab".data))) ∧
    (dropWsBeforePunct (pyStrip (squeezeDots (collapseWs "ab".data))) =
      pyStrip (squeezeDots (collapseWs "ab".data))) ∧
    cleanContentBasic (cleanContentBasic "ab".data) =
      cleanContentBasic "ab".data :=
  ⟨by decide, by decide, by decide, by decide,
    C9_normalize_idempotent "ab".data (by decide) (by decide) (by decide)
      (by decide)⟩
